import Mathlib

/-!
Shallow embedding of the payments-dashboard backend core (routing decision
engine, payment orchestrator, ledger, reconciliation engine) together with
theorems settling the frozen claims about it.

Conventions of the embedding:
* TypeScript `bigint` amounts become `Int`; JS `number` values that claims
  depend on are integral minor-unit amounts and become `Int`, while scoring
  arithmetic (JS doubles used only through exact decimal literals and
  divisions) becomes `Rat`.
* Fallible methods return `Except e a`; a thrown exception is `.error`.
* Stateful services are explicit state-passing functions returning the
  result together with the post-state.
-/

/-- The `Currency` enum of the Prisma schema (representative constructors). -/
inductive Currency
  | USD | EUR | GBP | SGD | JPY
deriving DecidableEq, Repr, Inhabited

/-- String code of a currency, as it appears in JS string contexts. -/
def Currency.code : Currency → String
  | .USD => "USD" | .EUR => "EUR" | .GBP => "GBP" | .SGD => "SGD" | .JPY => "JPY"

/-!  ## JS value model

`unknown` values flowing through the routing condition evaluator: strings,
numbers (no NaN constructor — NaN only arises from coercions and is modelled
as `none` in the coercion results), bigints, booleans, `null`, `undefined`
and arrays. -/

inductive JsValue
  | str (s : String)
  | num (q : Rat)
  | bigint (i : Int)
  | bool (b : Bool)
  | null
  | jsUndefined
  | arr (xs : List JsValue)
deriving Repr

namespace JsValue

/-- `typeof v === 'bigint'`. -/
def isBigintTy : JsValue → Bool
  | .bigint _ => true
  | _ => false

/-- JS strict equality `===` on the modelled values.  Arrays compare by
reference; the two operands in the evaluator always come from distinct
objects, so distinct-array comparison is `false`. -/
def strictEq : JsValue → JsValue → Bool
  | .str a, .str b => a == b
  | .num a, .num b => a == b
  | .bigint a, .bigint b => a == b
  | .bool a, .bool b => a == b
  | .null, .null => true
  | .jsUndefined, .jsUndefined => true
  | _, _ => false

/-- JS truthiness. -/
def truthy : JsValue → Bool
  | .str s => !s.isEmpty
  | .num q => q != 0
  | .bigint i => i != 0
  | .bool b => b
  | .null => false
  | .jsUndefined => false
  | .arr _ => true

end JsValue

/-- Digits of a decimal string, `none` unless all characters are digits and
the list is nonempty. -/
def decDigits? : List Char → Option Nat
  | [] => none
  | cs => if cs.all (·.isDigit) then
      some (cs.foldl (fun a c => a * 10 + (c.toNat - 48)) 0)
    else none

/-- `BigInt(s)` on a string: trimmed; empty string is `0`; an optional sign
followed by decimal digits parses exactly; anything else throws (`none`). -/
def parseBigIntString (s : String) : Option Int :=
  let t := s.trim
  if t.isEmpty then some 0
  else
    match t.data with
    | '+' :: rest => (decDigits? rest).map (fun n => (n : Int))
    | '-' :: rest => (decDigits? rest).map (fun n => -(n : Int))
    | cs => (decDigits? cs).map (fun n => (n : Int))

/-- `BigInt(v)`: `none` models a thrown `TypeError`/`SyntaxError`/`RangeError`
(non-integral numbers, non-numeric strings, `null`, `undefined`).  Array
operands (which reach `BigInt` only through corner cases no claim touches)
are modelled through their element coercions for the empty and singleton
shapes, otherwise throw. -/
def jsToBigInt : JsValue → Option Int
  | .bigint i => some i
  | .num q => if q.den == 1 then some q.num else none
  | .bool b => some (if b then 1 else 0)
  | .str s => parseBigIntString s
  | .null => none
  | .jsUndefined => none
  | .arr [] => some 0
  | .arr [x] => jsToBigInt x
  | .arr _ => none

/-- Fractional tail `.d₁d₂…` as a rational in `[0,1)`. -/
def fracOfDigits (cs : List Char) : Rat :=
  (cs.foldr (fun c acc => ((c.toNat - 48 : Nat) + acc) / 10) 0 : Rat)

/-- Parse a decimal literal `[sign] digits [. digits]` from the front of a
character list, returning the value and the unconsumed remainder; `none`
when no digit is found at all. -/
def parseDecFront (cs : List Char) : Option (Rat × List Char) :=
  let (sgn, cs₁) : Rat × List Char :=
    match cs with
    | '+' :: rest => (1, rest)
    | '-' :: rest => (-1, rest)
    | _ => (1, cs)
  let intPart := cs₁.takeWhile (·.isDigit)
  let cs₂ := cs₁.dropWhile (·.isDigit)
  match cs₂ with
  | '.' :: rest =>
      let fracPart := rest.takeWhile (·.isDigit)
      let cs₃ := rest.dropWhile (·.isDigit)
      if intPart.isEmpty && fracPart.isEmpty then none
      else some (sgn * ((intPart.foldl (fun a c => a * 10 + (c.toNat - 48)) 0 : Nat) +
                  fracOfDigits fracPart), cs₃)
  | _ =>
      if intPart.isEmpty then none
      else some (sgn * ((intPart.foldl (fun a c => a * 10 + (c.toNat - 48)) 0 : Nat) : Rat), cs₂)

/-- `parseFloat(s)`: leading whitespace skipped, then the longest decimal
literal from the front; `none` is `NaN`. -/
def jsParseFloat (s : String) : Option Rat :=
  (parseDecFront s.trimLeft.data).map (·.1)

/-- `Number(s)`: the whole (trimmed) string must be a decimal literal; the
empty string is `0`; `none` is `NaN`. -/
def jsNumberOfString (s : String) : Option Rat :=
  let t := s.trim
  if t.isEmpty then some 0
  else match parseDecFront t.data with
    | some (q, []) => some q
    | _ => none

/-- `Number(v)` coercion; `none` is `NaN`. -/
def jsNumber : JsValue → Option Rat
  | .num q => some q
  | .bigint i => some (i : Rat)
  | .str s => jsNumberOfString s
  | .bool b => some (if b then 1 else 0)
  | .null => some 0
  | .jsUndefined => none
  | .arr [] => some 0
  | .arr [x] => jsNumber x
  | .arr _ => none

/-! ## Routing: context and provider directory (`routing.types.ts`) -/

namespace Routing

/-- `RoutingContext` (routing.types.ts).  `metadata` is `none` when the JS
field is `undefined`, otherwise an association list of its entries. -/
structure Context where
  merchantId : String
  amount : Int
  currency : Currency
  paymentMethodType : String
  cardBrand : Option String := none
  country : Option String := none
  region : Option String := none
  customerId : Option String := none
  metadata : Option (List (String × JsValue)) := none
deriving Repr

/-- `RoutingProviderInfo` (routing.types.ts). -/
structure ProviderInfo where
  id : String
  code : String
  name : String
  status : String
  supportedCurrencies : List Currency
  supportedMethods : List String
  priority : Int
  successRate : Option Rat := none
  averageLatency : Option Rat := none
  costPerTransaction : Option Rat := none
  isActive : Bool
deriving Repr

end Routing

/-! ## Condition evaluator (`condition.evaluator.ts`) -/

namespace CondEval

/-- `ConditionOperator` (routing.types.ts); `in`/`not_in` are spelled
`opIn`/`opNotIn` because `in` is reserved in Lean. -/
inductive ConditionOperator
  | equals | notEquals | opIn | opNotIn
  | greaterThan | lessThan | greaterThanOrEquals | lessThanOrEquals
  | between | contains | startsWith | endsWith
deriving DecidableEq, Repr

/-- `RuleCondition` (routing.types.ts); an absent `value` is `undefined`. -/
structure RuleCondition where
  field : String
  operator : ConditionOperator
  value : JsValue := .jsUndefined
deriving Repr

/-- A field slot of `RoutingRuleConditions` holds either a full
`RuleCondition` (an object with a `field` key) or a legacy simple value. -/
inductive FieldCond
  | full (c : RuleCondition)
  | simple (v : JsValue)
deriving Repr

/-- Truthiness of `conditions.<field>`: a full condition is an object
(always truthy), a simple value uses JS truthiness, an absent field is
falsy. -/
def condTruthy : Option FieldCond → Bool
  | none => false
  | some (.full _) => true
  | some (.simple v) => v.truthy

/-- `RoutingRuleConditions` with the legacy raw `amountMin`/`amountMax`
keys the evaluator also reads. -/
structure RuleConditions where
  currency : Option FieldCond := none
  amount : Option FieldCond := none
  paymentMethodType : Option FieldCond := none
  cardBrand : Option FieldCond := none
  country : Option FieldCond := none
  region : Option FieldCond := none
  all : Option (List RuleCondition) := none
  any : Option (List RuleCondition) := none
  amountMin : Option JsValue := none
  amountMax : Option JsValue := none
deriving Repr

/-- `ConditionEvaluator.getFieldValue`: known fields read the context,
`metadata.<key>` reads the metadata map, anything else is `undefined`. -/
def getFieldValue (field : String) (ctx : Routing.Context) : JsValue :=
  if field == "currency" then .str ctx.currency.code
  else if field == "amount" then .bigint ctx.amount
  else if field == "paymentMethodType" then .str ctx.paymentMethodType
  else if field == "cardBrand" then (ctx.cardBrand.map JsValue.str).getD .jsUndefined
  else if field == "country" then (ctx.country.map JsValue.str).getD .jsUndefined
  else if field == "region" then (ctx.region.map JsValue.str).getD .jsUndefined
  else if field == "merchantId" then .str ctx.merchantId
  else if field == "customerId" then (ctx.customerId.map JsValue.str).getD .jsUndefined
  else if field.startsWith "metadata." then
    match ctx.metadata with
    | some m =>
        ((m.find? (fun kv => kv.1 == (field.drop 9))).map (·.2)).getD .jsUndefined
    | none => .jsUndefined
  else .jsUndefined

/-- `ConditionEvaluator.isEqual`: when either side is a bigint both sides
are coerced with `BigInt(_)` (which can throw, modelled as `.error`);
otherwise strict equality. -/
def isEqual (a b : JsValue) : Except String Bool :=
  if a.isBigintTy || b.isBigintTy then
    match jsToBigInt a, jsToBigInt b with
    | some x, some y => .ok (x == y)
    | _, _ => .error "Cannot convert operand to BigInt"
  else .ok (a.strictEq b)

/-- `ConditionEvaluator.toNumber`; `.error` models the thrown
`Cannot convert ... to number`. -/
def toNumber : JsValue → Except String Rat
  | .bigint i => .ok (i : Rat)
  | .num q => .ok q
  | .str s =>
      match jsParseFloat s with
      | some q => .ok q
      | none => .error "Cannot convert to number"
  | _ => .error "Cannot convert to number"

/-- `Array.prototype.includes` on the modelled values. -/
def jsIncludes (xs : List JsValue) (v : JsValue) : Bool :=
  xs.any (fun x => x.strictEq v)

/-- Case-insensitive substring test (`a.toLowerCase().includes(b.toLowerCase())`). -/
def strContainsCI (a b : String) : Bool :=
  (List.range (a.length + 1)).any (fun i => (a.toLower.drop i).startsWith b.toLower)

/-- `ConditionEvaluator.compareValues`. -/
def compareValues (fieldValue : JsValue) (op : ConditionOperator)
    (conditionValue : JsValue) : Except String Bool :=
  match op with
  | .equals => isEqual fieldValue conditionValue
  | .notEquals => (isEqual fieldValue conditionValue).map (! ·)
  | .opIn =>
      .ok (match conditionValue with
        | .arr xs => jsIncludes xs fieldValue
        | _ => false)
  | .opNotIn =>
      .ok (match conditionValue with
        | .arr xs => !(jsIncludes xs fieldValue)
        | _ => false)
  | .greaterThan => do
      pure (decide ((← toNumber fieldValue) > (← toNumber conditionValue)))
  | .lessThan => do
      pure (decide ((← toNumber fieldValue) < (← toNumber conditionValue)))
  | .greaterThanOrEquals => do
      pure (decide ((← toNumber fieldValue) ≥ (← toNumber conditionValue)))
  | .lessThanOrEquals => do
      pure (decide ((← toNumber fieldValue) ≤ (← toNumber conditionValue)))
  | .between =>
      match conditionValue with
      | .arr [lo, hi] => do
          let nv ← toNumber fieldValue
          let nlo ← toNumber lo
          let nhi ← toNumber hi
          pure (decide (nlo ≤ nv) && decide (nv ≤ nhi))
      | _ => .ok false
  | .contains =>
      .ok (match fieldValue, conditionValue with
        | .str a, .str b => strContainsCI a b
        | _, _ => false)
  | .startsWith =>
      .ok (match fieldValue, conditionValue with
        | .str a, .str b => a.toLower.startsWith b.toLower
        | _, _ => false)
  | .endsWith =>
      .ok (match fieldValue, conditionValue with
        | .str a, .str b => a.toLower.endsWith b.toLower
        | _, _ => false)

/-- `ConditionEvaluator.evaluateCondition`: `compareValues` runs inside
`try`/`catch`, so every error becomes a non-match. -/
def evaluateCondition (c : RuleCondition) (ctx : Routing.Context) : Bool :=
  match compareValues (getFieldValue c.field ctx) c.operator c.value with
  | .ok b => b
  | .error _ => false

/-- `ConditionEvaluator.evaluateFieldCondition`: a simple (non-object)
value compares with `isEqual` with NO surrounding `try`/`catch`, so a
conversion error propagates; the full format delegates to the guarded
`evaluateCondition`. -/
def evaluateFieldCondition (fieldName : String) (c : FieldCond)
    (ctx : Routing.Context) : Except String Bool :=
  match c with
  | .simple v => isEqual (getFieldValue fieldName ctx) v
  | .full rc => .ok (evaluateCondition rc ctx)

/-- One named-field step of `ConditionEvaluator.evaluate`: skipped when the
slot is falsy, otherwise evaluated (errors propagate). -/
def checkField (name : String) (oc : Option FieldCond) (ctx : Routing.Context) :
    Except String Bool :=
  if condTruthy oc then
    match oc with
    | some c => evaluateFieldCondition name c ctx
    | none => .ok true
  else .ok true

/-- Early-return sequencing of one field check inside `evaluate`: an
exception propagates, a failed check returns `false` to the caller, a
passed check continues. -/
def andThenB (x : Except String Bool) (k : Unit → Except String Bool) :
    Except String Bool :=
  match x with
  | .error e => .error e
  | .ok false => .ok false
  | .ok true => k ()

/-- The legacy `amountMin`/`amountMax` shorthand tail of `evaluate`:
`Number(context.amount)` compared against `Number(bound)` when the raw
key is present; a NaN bound (`none`) fails no comparison. -/
def legacyBoundsCheck (conds : RuleConditions) (ctx : Routing.Context) :
    Except String Bool :=
  let amount : Rat := (ctx.amount : Rat)
  let minViolated :=
    match conds.amountMin with
    | some v => match jsNumber v with
        | some m => decide (amount < m)
        | none => false
    | none => false
  if minViolated then .ok false
  else
    let maxViolated :=
      match conds.amountMax with
      | some v => match jsNumber v with
          | some m => decide (amount > m)
          | none => false
      | none => false
    if maxViolated then .ok false else .ok true

/-- `ConditionEvaluator.evaluate`: the `all` group, the `any` group, the
six named-field checks (early-returning, exceptions propagating), then
the legacy bounds shorthand. -/
def evaluate (conds : RuleConditions) (ctx : Routing.Context) :
    Except String Bool :=
  if (conds.all.getD []).length > 0 &&
      !((conds.all.getD []).all (fun c => evaluateCondition c ctx)) then
    .ok false
  else if (conds.any.getD []).length > 0 &&
      !((conds.any.getD []).any (fun c => evaluateCondition c ctx)) then
    .ok false
  else
    andThenB (checkField "currency" conds.currency ctx) fun _ =>
    andThenB (checkField "amount" conds.amount ctx) fun _ =>
    andThenB (checkField "paymentMethodType" conds.paymentMethodType ctx) fun _ =>
    andThenB (checkField "cardBrand" conds.cardBrand ctx) fun _ =>
    andThenB (checkField "country" conds.country ctx) fun _ =>
    andThenB (checkField "region" conds.region ctx) fun _ =>
    legacyBoundsCheck conds ctx

/-- A conditions field slot that is absent or in full `RuleCondition`
format (the legacy simple-value format is the one unguarded path). -/
def slotIsFull : Option FieldCond → Bool
  | none => true
  | some (.full _) => true
  | some (.simple _) => false

end CondEval

/-- The context used by the evaluator counterexamples: a plain USD card
payment of 1000 minor units. -/
def c8ctx : Routing.Context :=
  { merchantId := "m1", amount := 1000, currency := .USD,
    paymentMethodType := "card" }

/-- The rule-conditions JSON `{ amount: 10.5 }`: a legacy simple-value
condition on the `amount` field whose literal is a non-integral number. -/
def c8conds : CondEval.RuleConditions :=
  { amount := some (.simple (.num (mkRat 21 2))) }


/-! ## Provider scoring and selection
(`provider-score.evaluator.ts`, `routing.service.ts`) -/

namespace Routing

/-- `ScoringWeights` with the defaults of `DEFAULT_SCORING_WEIGHTS`. -/
structure ScoringWeights where
  successRate : Rat := 40 / 100
  availability : Rat := 25 / 100
  latency : Rat := 15 / 100
  cost : Rat := 10 / 100
  priority : Rat := 10 / 100
deriving Repr

/-- `ProviderScore` (routing.types.ts). -/
structure Score where
  providerId : String
  providerCode : String
  totalScore : Rat
  successRateScore : Rat
  availabilityScore : Rat
  latencyScore : Rat
  costScore : Rat
  priorityScore : Rat
  eligible : Bool
  disqualificationReason : Option String := none
deriving Repr

/-- `ProviderScoreEvaluator.checkEligibility`. -/
def checkEligibility (provider : ProviderInfo) (ctx : Context) :
    Bool × Option String :=
  if !provider.isActive then
    (false, some "Provider is inactive")
  else if provider.status == "INACTIVE" || provider.status == "MAINTENANCE" then
    (false, some ("Provider status is " ++ provider.status))
  else if !(provider.supportedCurrencies.contains ctx.currency) then
    (false, some ("Currency " ++ ctx.currency.code ++ " not supported"))
  else if !(provider.supportedMethods.contains ctx.paymentMethodType) then
    (false, some ("Payment method " ++ ctx.paymentMethodType ++ " not supported"))
  else (true, none)

/-- `calculateSuccessRateScore`. -/
def calculateSuccessRateScore (successRate : Rat) : Rat :=
  min 100 (max 0 (successRate * 100))

/-- `calculateAvailabilityScore`. -/
def calculateAvailabilityScore (status : String) : Rat :=
  if status == "ACTIVE" then 100
  else if status == "DEGRADED" then 50
  else 0

/-- `calculateLatencyScore`. -/
def calculateLatencyScore (latencyMs : Rat) : Rat :=
  if latencyMs < 100 then 100
  else if latencyMs < 300 then 100 - ((latencyMs - 100) / 200) * 25
  else if latencyMs < 500 then 75 - ((latencyMs - 300) / 200) * 25
  else if latencyMs < 1000 then 50 - ((latencyMs - 500) / 500) * 50
  else 0

/-- `calculateCostScore`. -/
def calculateCostScore (cost : Rat) : Rat :=
  if cost ≤ 0 then 100
  else if cost ≤ 1 / 100 then 100 - cost * 1000
  else if cost ≤ 3 / 100 then 90 - (cost - 1 / 100) * 2000
  else if cost ≤ 5 / 100 then 50 - (cost - 3 / 100) * 1000
  else max 0 (30 - (cost - 5 / 100) * 500)

/-- `calculatePriorityScore`. -/
def calculatePriorityScore (priority : Int) : Rat :=
  max 0 (100 - (priority - 1) * 10)

/-- The rolling-metrics read (`getProviderMetrics` after its `catch`):
optional live success rate and average latency per provider id. -/
structure Env where
  metrics : String → Option Rat × Option Rat
  weights : ScoringWeights := {}

/-- `ProviderScoreEvaluator.evaluateProvider`. -/
def evaluateProvider (env : Env) (provider : ProviderInfo) (ctx : Context) :
    Score :=
  let elig := checkEligibility provider ctx
  if !elig.1 then
    { providerId := provider.id, providerCode := provider.code,
      totalScore := 0, successRateScore := 0, availabilityScore := 0,
      latencyScore := 0, costScore := 0, priorityScore := 0,
      eligible := false, disqualificationReason := elig.2 }
  else
    let m := env.metrics provider.id
    let successRateScore := calculateSuccessRateScore
      ((m.1.orElse (fun _ => provider.successRate)).getD (95 / 100))
    let availabilityScore := calculateAvailabilityScore provider.status
    let latencyScore := calculateLatencyScore
      ((m.2.orElse (fun _ => provider.averageLatency)).getD 200)
    let costScore := calculateCostScore (provider.costPerTransaction.getD 0)
    let priorityScore := calculatePriorityScore provider.priority
    let totalScore :=
      successRateScore * env.weights.successRate +
      availabilityScore * env.weights.availability +
      latencyScore * env.weights.latency +
      costScore * env.weights.cost +
      priorityScore * env.weights.priority
    { providerId := provider.id, providerCode := provider.code,
      totalScore, successRateScore, availabilityScore, latencyScore,
      costScore, priorityScore, eligible := true }

/-- Stable insertion (descending by `totalScore`), modelling the stable
`scores.sort((a, b) => b.totalScore - a.totalScore)`. -/
def insertByScoreDesc (acc : List Score) (s : Score) : List Score :=
  match acc with
  | [] => [s]
  | t :: ts =>
      if t.totalScore < s.totalScore then s :: t :: ts
      else t :: insertByScoreDesc ts s

/-- Stable sort by descending `totalScore`. -/
def sortByScoreDesc (l : List Score) : List Score :=
  l.foldl insertByScoreDesc []

/-- `ProviderScoreEvaluator.evaluateProviders`. -/
def evaluateProviders (env : Env) (providers : List ProviderInfo)
    (ctx : Context) : List Score :=
  sortByScoreDesc (providers.map (fun p => evaluateProvider env p ctx))

/-- `RoutingRule` rows as loaded for a merchant (active, priority order). -/
structure Rule where
  id : String
  name : String
  providerId : String
  priority : Int
  conditions : CondEval.RuleConditions
deriving Repr

/-- The error outcomes `selectProvider` can produce: the two thrown
`Error`s of the service and an uncaught condition-evaluator exception. -/
inductive RoutingError
  | noProvidersAvailable
  | noEligibleProvider
  | evalThrew (msg : String)
deriving DecidableEq, Repr

/-- `RoutingDecision` (routing.types.ts). -/
structure Decision where
  selectedProviderId : String
  selectedProviderCode : String
  fallbackProviderIds : List String
  matchedRuleId : Option String := none
  score : Rat
  reason : String
deriving Repr

/-- The rule loop of `selectProvider` step 2: first rule whose condition
tree matches wins; an evaluator exception propagates. -/
def findMatchedRule (rules : List Rule) (ctx : Context) :
    Except String (Option Rule) :=
  match rules with
  | [] => .ok none
  | r :: rest =>
      match CondEval.evaluate r.conditions ctx with
      | .error m => .error m
      | .ok true => .ok (some r)
      | .ok false => findMatchedRule rest ctx

/-- `RoutingService.selectProvider`, with the merchant's active rules and
active provider configs supplied as inputs (steps 1 and 3 read them from
cache/database). -/
def selectProvider (env : Env) (rules : List Rule)
    (providers : List ProviderInfo) (ctx : Context) :
    Except RoutingError Decision :=
  match findMatchedRule rules ctx with
  | .error m => .error (.evalThrew m)
  | .ok matchedRule =>
    if providers.isEmpty then .error .noProvidersAvailable
    else
      match matchedRule.bind
          (fun mr => (providers.find? (fun p => p.id == mr.providerId)).map
            (fun p => (mr, p))) with
      | some (mr, ruleProvider) =>
          let scores := evaluateProviders env providers ctx
          let eligibleOthers := scores.filter
            (fun s => s.eligible && s.providerId != mr.providerId)
          .ok { selectedProviderId := ruleProvider.id,
                selectedProviderCode := ruleProvider.code,
                fallbackProviderIds := (eligibleOthers.take 2).map (·.providerId),
                matchedRuleId := some mr.id,
                score := 100,
                reason := "Matched routing rule: " ++ mr.name }
      | none =>
          let scores := evaluateProviders env providers ctx
          let eligibles := scores.filter (·.eligible)
          match eligibles with
          | [] => .error .noEligibleProvider
          | s :: rest =>
              .ok { selectedProviderId := s.providerId,
                    selectedProviderCode := s.providerCode,
                    fallbackProviderIds := (rest.take 2).map (·.providerId),
                    matchedRuleId := none,
                    score := s.totalScore,
                    reason := "Selected by scoring algorithm" }

end Routing
/-- Routing context for the C3 scenarios: a USD card payment. -/
def c3ctx : Routing.Context :=
  { merchantId := "m1", amount := 5000, currency := .USD,
    paymentMethodType := "card" }

/-- A routing rule with an empty condition tree (matches every context)
targeting provider `p1`. -/
def c3rule : Routing.Rule :=
  { id := "r1", name := "route all to p1", providerId := "p1",
    priority := 1, conditions := {} }

/-- Provider `p1` configured for the merchant but supporting only EUR —
ineligible for the USD context. -/
def c3prov : Routing.ProviderInfo :=
  { id := "p1", code := "alpha", name := "Alpha", status := "ACTIVE",
    supportedCurrencies := [.EUR], supportedMethods := ["card"],
    priority := 1, isActive := true }

/-- The same provider supporting USD — eligible for the USD context. -/
def c3wprov : Routing.ProviderInfo :=
  { id := "p1", code := "alpha", name := "Alpha", status := "ACTIVE",
    supportedCurrencies := [.USD], supportedMethods := ["card"],
    priority := 1, isActive := true }

/-- A routing environment with no live metrics. -/
def c3env : Routing.Env := { metrics := fun _ => (none, none) }

/-! ## Ledger (`ledger.service.ts`) -/

namespace Ledger

/-- `LedgerEntryType`. -/
inductive EntryType
  | DEBIT | CREDIT
deriving DecidableEq, Repr

/-- `CreateLedgerEntryRequest` (the fields `recordEntries` reads). -/
structure EntryRequest where
  transactionId : String
  accountCode : String
  entryType : EntryType
  amount : Int
  currency : Currency
  description : Option String := none
deriving DecidableEq, Repr

/-- A persisted `LedgerEntry` row (the fields the claims concern). -/
structure Entry where
  transactionId : String
  accountCode : String
  entryType : EntryType
  amount : Int
  currency : Currency
deriving DecidableEq, Repr

/-- `LedgerError` variants used by `recordEntries`. -/
inductive LedgerError
  | transactionNotFound (transactionId : String)
  | unbalancedEntry (transactionId : String)
deriving DecidableEq, Repr

/-- Sum of DEBIT amounts of one currency in a submitted entry set. -/
def debitTotal (c : Currency) (entries : List EntryRequest) : Int :=
  ((entries.filter (fun e => e.currency == c && e.entryType == EntryType.DEBIT)).map
    (·.amount)).sum

/-- Sum of CREDIT amounts of one currency in a submitted entry set. -/
def creditTotal (c : Currency) (entries : List EntryRequest) : Int :=
  ((entries.filter (fun e => e.currency == c && e.entryType == EntryType.CREDIT)).map
    (·.amount)).sum

/-- The currencies present in a submitted entry set (the key set of the
`currencyTotals` map built by `validateBalance`). -/
def currenciesPresent (entries : List EntryRequest) : List Currency :=
  (entries.map (·.currency)).eraseDups

/-- `LedgerService.validateBalance` as a predicate: `true` iff the loop
over the per-currency totals finds no currency with debits ≠ credits (iff
the method returns instead of throwing `UnbalancedEntry`). -/
def validateBalanceOk (entries : List EntryRequest) : Bool :=
  (currenciesPresent entries).all
    (fun c => debitTotal c entries == creditTotal c entries)

/-- The persistence visible to the ledger: the set of existing transaction
ids and the ledger-entry table. -/
structure State where
  transactionIds : List String
  entries : List Entry
deriving Repr

/-- `LedgerService.recordEntries`: transaction-existence check, in-memory
balance validation, then one atomic batch insert.  Returns the created
rows together with the post-state. -/
def recordEntries (st : State) (transactionId : String)
    (reqs : List EntryRequest) : Except LedgerError (List Entry) × State :=
  if !(st.transactionIds.contains transactionId) then
    (.error (.transactionNotFound transactionId), st)
  else if !(validateBalanceOk reqs) then
    (.error (.unbalancedEntry transactionId), st)
  else
    let created : List Entry := reqs.map (fun r =>
      { transactionId := r.transactionId, accountCode := r.accountCode,
        entryType := r.entryType, amount := r.amount, currency := r.currency })
    (.ok created, { st with entries := st.entries ++ created })

end Ledger

/-! ## Payment orchestrator (`payment.service.ts`) -/

namespace Payment

/-- `TransactionStatus`. -/
inductive TransactionStatus
  | PENDING | PROCESSING | COMPLETED | FAILED | CANCELLED | REFUNDED
deriving DecidableEq, Repr, Inhabited

/-- A `Transaction` row (the fields the orchestrator claims concern). -/
structure Txn where
  id : String
  merchantId : String
  customerId : Option String := none
  status : TransactionStatus
  amount : Int
  currency : Currency
  convertedAmount : Option Int := none
  convertedCurrency : Option Currency := none
  fxRateId : Option String := none
  providerId : Option String := none
  providerTransactionId : Option String := none
  idempotencyKey : Option String := none
  failureReason : Option String := none
  captured : Bool := false
deriving DecidableEq, Repr, Inhabited

/-- One `TransactionStatusHistory` row. -/
structure StatusChange where
  transactionId : String
  fromStatus : Option TransactionStatus
  toStatus : TransactionStatus
  reason : Option String := none
deriving DecidableEq, Repr

/-- The persistence and effect log threaded through the orchestrator.
`fxCalls`/`routingCalls` count collaborator invocations, `authorizeCalls`
records each adapter `authorize` call in order, and `metricsUpdates`
records each `updateMetrics(providerId, success, ..)` call. -/
structure State where
  transactions : List Txn
  statusHistory : List StatusChange
  fxCalls : Nat := 0
  routingCalls : Nat := 0
  authorizeCalls : List String := []
  metricsUpdates : List (String × Bool) := []
deriving Repr

/-- `findUnique` on the transaction table by id. -/
def findTxn (st : State) (id : String) : Option Txn :=
  st.transactions.find? (fun t => t.id == id)

/-- `update` on the transaction row with the given id. -/
def updateTxn (st : State) (id : String) (f : Txn → Txn) : State :=
  { st with transactions :=
      st.transactions.map (fun t => if t.id == id then f t else t) }

/-- `recordStatusChange`: append one status-history row. -/
def recordStatusChange (st : State) (h : StatusChange) : State :=
  { st with statusHistory := st.statusHistory ++ [h] }

/-- `PaymentError` (payment.types.ts), plus `internalError` for plain
`Error` throws that are not `PaymentError`s. -/
inductive PaymentError
  | invalidRequest (msg : String)
  | notFound (transactionId : String)
  | invalidStatus (transactionId : String) (currentStatus : TransactionStatus)
      (requiredStatus : TransactionStatus)
  | providerError (msg : String) (transactionId : Option String)
  | allProvidersFailed (transactionId : Option String)
  | internalError (msg : String)
deriving DecidableEq, Repr

/-- `PaymentService.updateTransactionStatus`: read the current status,
overwrite status and failure reason, append history from the read status. -/
def updateTransactionStatus (st : State) (id : String)
    (status : TransactionStatus) (failureReason : Option String) : State :=
  let current := (findTxn st id).map (·.status)
  let st₁ := updateTxn st id (fun t =>
    { t with status := status, failureReason := failureReason })
  recordStatusChange st₁
    { transactionId := id, fromStatus := current, toStatus := status,
      reason := failureReason }

/-- What an adapter `authorize` call does for a given provider:
return a result or throw. -/
inductive AuthorizeOutcome
  | ok (success : Bool) (status : String) (providerTransactionId : String)
      (declineReason : Option String)
  | providerError (retryable : Bool) (msg : String)
  | otherError (msg : String)
deriving Repr

/-- An error escaping one payment attempt: a `ProviderError` (with its
`isRetryable` flag) or any other thrown error. -/
inductive AttemptError
  | provider (retryable : Bool) (msg : String)
  | plain (msg : String)
deriving DecidableEq, Repr

/-- `error.message`. -/
def AttemptError.message : AttemptError → String
  | .provider _ m => m
  | .plain m => m

/-- The part of the routing decision `createPayment` consumes. -/
structure RouteChoice where
  selectedProviderId : String
  fallbackProviderIds : List String
deriving Repr

/-- The routing context `createPayment` builds (payment.service.ts). -/
structure PayContext where
  merchantId : String
  amount : Int
  currency : Currency
  paymentMethodType : String
  customerId : Option String := none
deriving DecidableEq, Repr

/-- External collaborators of `createPayment`/`capturePayment`:
FX conversion, routing, the provider table and the provider adapters. -/
structure Env where
  fxConvert : Int → Currency → Currency → Int × String
  selectProvider : PayContext → Except String RouteChoice
  providerExists : String → Bool
  authorize : String → AuthorizeOutcome
  capture : String → Except (Bool × String) Int
  newTxnId : String

/-- `CreatePaymentRequest` (payment.types.ts, fields the flow reads). -/
structure CreatePaymentRequest where
  merchantId : String
  customerId : Option String := none
  amount : Int
  currency : Currency
  targetCurrency : Option Currency := none
  paymentMethodType : String
  capture : Bool := true
  description : Option String := none
  idempotencyKey : Option String := none
deriving Repr

/-- The idempotency lookup at the top of `createPayment`. -/
def idempotencyHit (st : State) (req : CreatePaymentRequest) : Option Txn :=
  req.idempotencyKey.bind (fun k =>
    st.transactions.find? (fun t => t.idempotencyKey == some k))

/-- The FX step: `some (convertedAmount, convertedCurrency, fxRateId)`
when a distinct target currency is requested. -/
def fxStep (env : Env) (req : CreatePaymentRequest) :
    Option (Int × Currency × String) :=
  match req.targetCurrency with
  | some tc =>
      if tc ≠ req.currency then
        let conv := env.fxConvert req.amount req.currency tc
        some (conv.1, tc, conv.2)
      else none
  | none => none

/-- The routing context built in step 3 of `createPayment`. -/
def routingContextOf (env : Env) (req : CreatePaymentRequest) : PayContext :=
  let fx := fxStep env req
  { merchantId := req.merchantId,
    amount := ((fx.map (·.1)).getD req.amount),
    currency := ((fx.map (·.2.1)).getD req.currency),
    paymentMethodType := req.paymentMethodType,
    customerId := req.customerId }

/-- `PaymentService.executePaymentWithProvider`: provider lookup, mark
PROCESSING (history rows hardcode `fromStatus = PENDING`), adapter
`authorize`, then either finalize the transaction from the adapter result
or record failure metrics and rethrow. -/
def executePaymentWithProvider (env : Env) (st : State)
    (transactionId providerId : String) :
    Except AttemptError Txn × State :=
  if !(env.providerExists providerId) then
    (.error (.plain ("Provider " ++ providerId ++ " not found")), st)
  else
    let st₁ := updateTxn st transactionId (fun t =>
      { t with providerId := some providerId,
               status := TransactionStatus.PROCESSING })
    let st₂ := recordStatusChange st₁
      { transactionId := transactionId,
        fromStatus := some TransactionStatus.PENDING,
        toStatus := TransactionStatus.PROCESSING }
    let st₃ := { st₂ with authorizeCalls := st₂.authorizeCalls ++ [providerId] }
    match env.authorize providerId with
    | .ok success status ptid declineReason =>
        let newStatus :=
          if status == "captured" then TransactionStatus.COMPLETED
          else if status == "authorized" then TransactionStatus.PENDING
          else TransactionStatus.FAILED
        let st₄ := updateTxn st₃ transactionId (fun t =>
          { t with status := newStatus,
                   providerTransactionId := some ptid,
                   captured := status == "captured",
                   failureReason := declineReason })
        let st₅ := recordStatusChange st₄
          { transactionId := transactionId,
            fromStatus := some TransactionStatus.PROCESSING,
            toStatus := newStatus }
        let st₆ := { st₅ with
          metricsUpdates := st₅.metricsUpdates ++ [(providerId, success)] }
        (.ok ((findTxn st₆ transactionId).getD default), st₆)
    | .providerError retryable msg =>
        let st₄ := { st₃ with
          metricsUpdates := st₃.metricsUpdates ++ [(providerId, false)] }
        (.error (.provider retryable msg), st₄)
    | .otherError msg =>
        let st₄ := { st₃ with
          metricsUpdates := st₃.metricsUpdates ++ [(providerId, false)] }
        (.error (.plain msg), st₄)

/-- The `lastError?.message ?? 'All payment providers failed'` reason. -/
def failReason (lastErr : Option AttemptError) : String :=
  match lastErr with
  | some e => e.message
  | none => "All payment providers failed"

/-- The all-attempts-failed tail of `createPayment`: mark FAILED with the
last error's message and throw `AllProvidersFailed`. -/
def markAllFailed (st : State) (transactionId : String)
    (lastErr : Option AttemptError) : Except PaymentError Txn × State :=
  let st₁ := updateTransactionStatus st transactionId
    TransactionStatus.FAILED (some (failReason lastErr))
  (.error (.allProvidersFailed (some transactionId)), st₁)

/-- The provider-attempt loop of `createPayment` (already restricted to
the first `min(length, MAX_PROVIDER_RETRIES)` candidates): try each in
order, return on success, continue on a retryable error, stop on a
non-retryable one. -/
def attemptLoop (env : Env) (transactionId : String) :
    List String → State → Option AttemptError →
    Except PaymentError Txn × State
  | [], st, lastErr => markAllFailed st transactionId lastErr
  | p :: rest, st, _lastErr =>
      match executePaymentWithProvider env st transactionId p with
      | (.ok t, st') => (.ok t, st')
      | (.error e, st') =>
          if (match e with
              | .provider r _ => r
              | .plain _ => false) then
            attemptLoop env transactionId rest st' (some e)
          else
            markAllFailed st' transactionId (some e)

/-- `MAX_PROVIDER_RETRIES`. -/
def MAX_PROVIDER_RETRIES : Nat := 3

/-- `PaymentService.createPayment`: idempotency short-circuit, FX
conversion, routing decision, PENDING transaction creation with history,
then the capped provider-attempt loop. -/
def createPayment (env : Env) (st : State) (req : CreatePaymentRequest) :
    Except PaymentError Txn × State :=
  match idempotencyHit st req with
  | some existing => (.ok existing, st)
  | none =>
    let fx := fxStep env req
    let st := if fx.isSome then { st with fxCalls := st.fxCalls + 1 } else st
    let st := { st with routingCalls := st.routingCalls + 1 }
    match env.selectProvider (routingContextOf env req) with
    | .error msg => (.error (.internalError msg), st)
    | .ok decision =>
      let txn : Txn :=
        { id := env.newTxnId, merchantId := req.merchantId,
          customerId := req.customerId,
          status := TransactionStatus.PENDING,
          amount := req.amount, currency := req.currency,
          convertedAmount := fx.map (·.1),
          convertedCurrency := fx.map (·.2.1),
          fxRateId := fx.map (·.2.2),
          idempotencyKey := req.idempotencyKey }
      let st := { st with transactions := st.transactions ++ [txn] }
      let st := recordStatusChange st
        { transactionId := env.newTxnId, fromStatus := none,
          toStatus := TransactionStatus.PENDING }
      let allProviderIds :=
        decision.selectedProviderId :: decision.fallbackProviderIds
      attemptLoop env env.newTxnId (allProviderIds.take MAX_PROVIDER_RETRIES)
        st none

/-- The state just before the provider-attempt loop of `createPayment`
(after the FX step, the routing call, the PENDING insert and its history
row). -/
def preLoopState (env : Env) (st : State) (req : CreatePaymentRequest) :
    State :=
  let fx := fxStep env req
  let st := if fx.isSome then { st with fxCalls := st.fxCalls + 1 } else st
  let st := { st with routingCalls := st.routingCalls + 1 }
  let txn : Txn :=
    { id := env.newTxnId, merchantId := req.merchantId,
      customerId := req.customerId,
      status := TransactionStatus.PENDING,
      amount := req.amount, currency := req.currency,
      convertedAmount := fx.map (·.1),
      convertedCurrency := fx.map (·.2.1),
      fxRateId := fx.map (·.2.2),
      idempotencyKey := req.idempotencyKey }
  let st := { st with transactions := st.transactions ++ [txn] }
  recordStatusChange st
    { transactionId := env.newTxnId, fromStatus := none,
      toStatus := TransactionStatus.PENDING }

/-- `PaymentService.capturePayment`: requires PENDING and a provider,
delegates to the adapter, then moves the row straight to COMPLETED with a
`PENDING → COMPLETED` history entry. -/
def capturePayment (env : Env) (st : State) (id : String) :
    Except PaymentError Txn × State :=
  match findTxn st id with
  | none => (.error (.notFound id), st)
  | some txn =>
    if txn.status ≠ TransactionStatus.PENDING then
      (.error (.invalidStatus id txn.status TransactionStatus.PENDING), st)
    else
      match txn.providerId, txn.providerTransactionId with
      | some pid, some ptid =>
          if !(env.providerExists pid) then
            (.error (.providerError "Provider not found" (some id)), st)
          else
            match env.capture ptid with
            | .error (isProviderErr, msg) =>
                (.error (if isProviderErr then .providerError msg (some id)
                         else .internalError msg), st)
            | .ok _capturedAmount =>
                let st₁ := updateTxn st id (fun t =>
                  { t with status := TransactionStatus.COMPLETED,
                           captured := true })
                let st₂ := recordStatusChange st₁
                  { transactionId := id,
                    fromStatus := some TransactionStatus.PENDING,
                    toStatus := TransactionStatus.COMPLETED }
                let st₃ := { st₂ with
                  metricsUpdates := st₂.metricsUpdates ++ [(pid, true)] }
                (.ok ((findTxn st₃ id).getD default), st₃)
      | _, _ => (.error (.invalidRequest "Transaction has no provider"), st)

/-- The transition graph exactly as the specification states it
(spec §4.2): `PENDING → PROCESSING → {COMPLETED | FAILED}`,
`COMPLETED → REFUNDED`, `PENDING → CANCELLED`.  Written from the spec's
words for comparison against the code's behaviour. -/
def specTransitionGraph : List (TransactionStatus × TransactionStatus) :=
  [(.PENDING, .PROCESSING), (.PROCESSING, .COMPLETED),
   (.PROCESSING, .FAILED), (.COMPLETED, .REFUNDED), (.PENDING, .CANCELLED)]

/-- Classification of one attempt against a candidate provider, read off
`executePaymentWithProvider`: a missing provider row throws a plain
`Error` (non-retryable); an adapter result returns; a thrown
`ProviderError` keeps its retryable flag. -/
inductive AttemptClass
  | success
  | retryableFail (e : AttemptError)
  | fatalFail (e : AttemptError)
deriving Repr

/-- Classify the attempt `executePaymentWithProvider` would make against
provider `p`. -/
def classifyAttempt (env : Env) (p : String) : AttemptClass :=
  if !(env.providerExists p) then
    .fatalFail (.plain ("Provider " ++ p ++ " not found"))
  else
    match env.authorize p with
    | .ok _ _ _ _ => .success
    | .providerError true m => .retryableFail (.provider true m)
    | .providerError false m => .fatalFail (.provider false m)
    | .otherError m => .fatalFail (.plain m)

/-- The providers the loop actually tries, in order: a prefix of the
candidate list that continues past an attempt only when it failed
retryably. -/
def triedProviders (env : Env) : List String → List String
  | [] => []
  | p :: rest =>
      match classifyAttempt env p with
      | .retryableFail _ => p :: triedProviders env rest
      | _ => [p]

/-- Outcome of the attempt loop on a candidate list: the succeeding
provider, or failure with the final `lastError`. -/
inductive LoopOutcome
  | succeeded (p : String)
  | failed (lastErr : Option AttemptError)
deriving Repr

/-- Specification of the loop's control flow. -/
def loopOutcome (env : Env) : List String → Option AttemptError → LoopOutcome
  | [], lastErr => .failed lastErr
  | p :: rest, _ =>
      match classifyAttempt env p with
      | .success => .succeeded p
      | .retryableFail e => loopOutcome env rest (some e)
      | .fatalFail e => .failed (some e)

end Payment

/-- An orchestrator environment in which every provider exists and every
adapter call succeeds with an immediate capture. -/
def payEnvOk : Payment.Env :=
  { fxConvert := fun a _ _ => (a, "fx1"),
    selectProvider := fun _ =>
      .ok { selectedProviderId := "p1", fallbackProviderIds := [] },
    providerExists := fun _ => true,
    authorize := fun _ => .ok true "captured" "x1" none,
    capture := fun _ => .ok 500,
    newTxnId := "t9" }

/-- A store holding one PENDING transaction with a provider attached —
the precondition state of a capture. -/
def c2st : Payment.State :=
  { transactions := [
      { id := "t1", merchantId := "m1",
        status := .PENDING, amount := 500, currency := .USD,
        providerId := some "p1", providerTransactionId := some "x1" }],
    statusHistory := [] }

/-- A store holding one COMPLETED transaction carrying idempotency key
`k1`. -/
def c4st : Payment.State :=
  { transactions := [
      { id := "t0", merchantId := "m1",
        status := .COMPLETED, amount := 100, currency := .USD,
        providerId := some "p1", providerTransactionId := some "x0",
        idempotencyKey := some "k1" }],
    statusHistory := [] }

/-- A create-payment request resubmitting idempotency key `k1`. -/
def c4req : Payment.CreatePaymentRequest :=
  { merchantId := "m1", amount := 100, currency := .USD,
    paymentMethodType := "card", idempotencyKey := some "k1" }

/-- An environment whose selected provider fails retryably and whose
single fallback fails non-retryably. -/
def c5env : Payment.Env :=
  { fxConvert := fun a _ _ => (a, "fx1"),
    selectProvider := fun _ =>
      .ok { selectedProviderId := "p1", fallbackProviderIds := ["p2"] },
    providerExists := fun _ => true,
    authorize := fun p =>
      if p == "p1" then .providerError true "network error"
      else .providerError false "card declined",
    capture := fun _ => .ok 0,
    newTxnId := "t9" }

/-- An empty store. -/
def c5st : Payment.State := { transactions := [], statusHistory := [] }

/-- A plain USD card payment request without idempotency key. -/
def c5req : Payment.CreatePaymentRequest :=
  { merchantId := "m1", amount := 100, currency := .USD,
    paymentMethodType := "card" }

/-! ## Reconciliation engine (`reconciliation.service.ts`) -/

namespace Recon

/-- `SettlementRecord` (amounts are integral minor units). -/
structure SettlementRecord where
  transactionId : String
  amount : Int
  currency : String
  status : String
deriving DecidableEq, Repr

/-- A local `Transaction` row as the reconciler reads it. -/
structure LocalTxn where
  id : String
  amount : Int
  status : String
deriving DecidableEq, Repr

/-- `DiscrepancyType`. -/
inductive DiscrepancyType
  | MISSING_IN_DB | MISSING_IN_PROVIDER | AMOUNT_MISMATCH | STATUS_MISMATCH
deriving DecidableEq, Repr

/-- `DiscrepancyResolution`. -/
inductive Resolution
  | forceMatch | refund | ignore
deriving DecidableEq, Repr

/-- `Discrepancy`. -/
structure Discrepancy where
  id : String
  transactionId : String
  dtype : DiscrepancyType
  resolution : Option Resolution := none
  resolvedAt : Option Nat := none
  resolvedBy : Option String := none
deriving DecidableEq, Repr

/-- Report status values `reconcile`/`resolveDiscrepancy` produce. -/
inductive ReportStatus
  | REQUIRES_REVIEW | COMPLETED
deriving DecidableEq, Repr

/-- `ReconciliationReport` (the fields the claims concern). -/
structure Report where
  id : String
  status : ReportStatus
  totalTransactions : Nat
  matchedTransactions : Nat
  unmatchedTransactions : Nat
  discrepancies : List Discrepancy
  reviewedAt : Option Nat := none
  reviewedBy : Option String := none
deriving DecidableEq, Repr

/-- `localMap.get id` for a `Map` built from the list (later entries win). -/
def localLookup (locals : List LocalTxn) (id : String) : Option LocalTxn :=
  locals.reverse.find? (fun t => t.id == id)

/-- Discrepancy-id string `disc_<idx>`. -/
def discId (idx : Nat) : String := "disc_" ++ toString idx

/-- The first loop of `reconcile`: check each provider settlement record
against the local map, emitting MISSING_IN_DB / AMOUNT_MISMATCH /
STATUS_MISMATCH discrepancies and counting matched records; the running
discrepancy index is threaded through.  Returns (discrepancies, matched
count, next index). -/
def providerPass (locals : List LocalTxn) :
    List SettlementRecord → Nat → List Discrepancy × Nat × Nat
  | [], idx => ([], 0, idx)
  | r :: rest, idx =>
      match localLookup locals r.transactionId with
      | none =>
          let d : Discrepancy :=
            { id := discId idx, transactionId := r.transactionId,
              dtype := .MISSING_IN_DB }
          let res := providerPass locals rest (idx + 1)
          (d :: res.1, res.2.1, res.2.2)
      | some t =>
          let amountDs : List Discrepancy :=
            if t.amount ≠ r.amount then
              [{ id := discId idx, transactionId := r.transactionId,
                 dtype := .AMOUNT_MISMATCH }]
            else []
          let idx₁ := idx + amountDs.length
          let statusDs : List Discrepancy :=
            if t.status ≠ r.status then
              [{ id := discId idx₁, transactionId := r.transactionId,
                 dtype := .STATUS_MISMATCH }]
            else []
          let idx₂ := idx₁ + statusDs.length
          let here := amountDs ++ statusDs
          let matchedHere := if here.isEmpty then 1 else 0
          let res := providerPass locals rest idx₂
          (here ++ res.1, matchedHere + res.2.1, res.2.2)

/-- The second loop of `reconcile`: each local transaction absent from the
provider settlement produces a MISSING_IN_PROVIDER discrepancy. -/
def localPass (settlementIds : List String) :
    List LocalTxn → Nat → List Discrepancy × Nat
  | [], idx => ([], idx)
  | t :: rest, idx =>
      if settlementIds.contains t.id then localPass settlementIds rest idx
      else
        let d : Discrepancy :=
          { id := discId idx, transactionId := t.id,
            dtype := .MISSING_IN_PROVIDER }
        let res := localPass settlementIds rest (idx + 1)
        (d :: res.1, res.2)

/-- `ReconciliationService.reconcile` (the pure comparison and report
construction; period bounds and persistence ids are external). -/
def reconcile (reportId : String) (settlementData : List SettlementRecord)
    (locals : List LocalTxn) : Report :=
  let p := providerPass locals settlementData 0
  let l := localPass (settlementData.map (·.transactionId)) locals p.2.2
  let discrepancies := p.1 ++ l.1
  let totalTransactions :=
    ((settlementData.map (·.transactionId)) ++ (locals.map (·.id))).eraseDups.length
  { id := reportId,
    status := if discrepancies.length > 0 then .REQUIRES_REVIEW else .COMPLETED,
    totalTransactions := totalTransactions,
    matchedTransactions := p.2.1,
    unmatchedTransactions := discrepancies.length,
    discrepancies := discrepancies }

/-- Whether one provider record matches its local counterpart exactly
(present, same amount, same status) — the condition under which the code
raises no discrepancy for it. -/
def recordMatches (locals : List LocalTxn) (r : SettlementRecord) : Bool :=
  match localLookup locals r.transactionId with
  | none => false
  | some t => t.amount == r.amount && t.status == r.status

/-- The settlement-record ids counted as matched. -/
def matchedIds (settlementData : List SettlementRecord)
    (locals : List LocalTxn) : List String :=
  ((settlementData.filter (recordMatches locals)).map (·.transactionId))

/-- The union of provider and local transaction ids, in first-seen order
(the insertion order of the `Set` the code builds). -/
def unionIds (settlementData : List SettlementRecord)
    (locals : List LocalTxn) : List String :=
  ((settlementData.map (·.transactionId)) ++ (locals.map (·.id))).eraseDups

/-- Reconciliation error values. -/
inductive ReconError
  | reportNotFound (reportId : String)
  | discrepancyNotFound (reportId discrepancyId : String)
deriving DecidableEq, Repr

/-- Overwrite the resolution of the first discrepancy with the given id
(`findIndex` + in-place element replacement); `none` when absent. -/
def resolveIn (discrepancyId : String) (resolution : Resolution)
    (resolvedBy : Option String) (now : Nat) :
    List Discrepancy → Option (List Discrepancy)
  | [] => none
  | d :: rest =>
      if d.id == discrepancyId then
        some ({ d with resolution := some resolution,
                       resolvedAt := some now,
                       resolvedBy := resolvedBy } :: rest)
      else
        (resolveIn discrepancyId resolution resolvedBy now rest).map (d :: ·)

/-- `ReconciliationService.resolveDiscrepancy` on an already-loaded
report: attach the resolution, recompute `allResolved`, set the status
accordingly and stamp `reviewedAt`/`reviewedBy` only when all are
resolved (a prisma `undefined` leaves the stored value unchanged). -/
def resolveDiscrepancy (report : Report) (discrepancyId : String)
    (resolution : Resolution) (resolvedBy : Option String) (now : Nat) :
    Except ReconError Report :=
  match resolveIn discrepancyId resolution resolvedBy now report.discrepancies with
  | none => .error (.discrepancyNotFound report.id discrepancyId)
  | some ds =>
      let allResolved := ds.all (fun d => d.resolution.isSome)
      .ok { report with
            discrepancies := ds,
            status := if allResolved then .COMPLETED else .REQUIRES_REVIEW,
            reviewedAt := if allResolved then some now else report.reviewedAt,
            reviewedBy := if allResolved then resolvedBy else report.reviewedBy }

end Recon

/-- Settlement input for the reconciliation scenarios: one provider line
for `t1` with amount 1000, status COMPLETED. -/
def c10settlement : List Recon.SettlementRecord :=
  [{ transactionId := "t1", amount := 1000, currency := "USD",
     status := "COMPLETED" }]

/-- Local rows for the reconciliation scenarios: `t1` disagrees on both
amount and status. -/
def c10locals : List Recon.LocalTxn :=
  [{ id := "t1", amount := 900, status := "FAILED" }]

/-- A report under review with a single unresolved discrepancy `d1`. -/
def c7report : Recon.Report :=
  { id := "r1", status := .REQUIRES_REVIEW, totalTransactions := 1,
    matchedTransactions := 0, unmatchedTransactions := 1,
    discrepancies := [{ id := "d1", transactionId := "t1",
                        dtype := .AMOUNT_MISMATCH }] }
/-! # Theorems

Helper lemmas first, then one theorem per claim (with witnesses /
counterexamples as required). -/

namespace Ledger

/-- `validateBalance` does not throw iff every currency present balances. -/
theorem validateBalanceOk_iff (reqs : List EntryRequest) :
    validateBalanceOk reqs = true ↔
      ∀ c ∈ currenciesPresent reqs, debitTotal c reqs = creditTotal c reqs := by
  simp [validateBalanceOk, List.all_eq_true, beq_iff_eq]

/-- A singleton entry set balances iff its amount is zero. -/
theorem validateBalanceOk_single (e : EntryRequest) :
    validateBalanceOk [e] = (e.amount == 0) := by
  have hc : currenciesPresent [e] = [e.currency] := rfl
  cases het : e.entryType
  all_goals simp only [validateBalanceOk, hc, debitTotal, creditTotal,
    List.filter_cons, List.filter_nil, het]
  all_goals simp
  all_goals try (constructor <;> intro h <;> omega)

end Ledger

/-- C1: for a known transaction id and any submitted entry list,
`recordEntries` throws `UnbalancedEntry` iff some currency present in the
entry set has unequal DEBIT and CREDIT sums; on any error the state is
unchanged (no entry is written); and any accepted entry set balances per
currency. -/
theorem C1_recordEntries_balance (st : Ledger.State) (tid : String)
    (reqs : List Ledger.EntryRequest)
    (hknown : st.transactionIds.contains tid = true) :
    ((Ledger.recordEntries st tid reqs).1 =
        .error (.unbalancedEntry tid) ↔
      ∃ c ∈ Ledger.currenciesPresent reqs,
        Ledger.debitTotal c reqs ≠ Ledger.creditTotal c reqs) ∧
    (∀ err, (Ledger.recordEntries st tid reqs).1 = .error err →
      (Ledger.recordEntries st tid reqs).2 = st) ∧
    (∀ out, (Ledger.recordEntries st tid reqs).1 = .ok out →
      ∀ c ∈ Ledger.currenciesPresent reqs,
        Ledger.debitTotal c reqs = Ledger.creditTotal c reqs) := by
  by_cases hv : Ledger.validateBalanceOk reqs
  · refine ⟨?_, ?_, ?_⟩
    · simp only [Ledger.recordEntries, hknown, hv, Bool.not_true,
        Bool.false_eq_true, if_false]
      constructor
      · intro h; simp at h
      · rintro ⟨c, hc, hne⟩
        exact absurd ((Ledger.validateBalanceOk_iff reqs).mp hv c hc) hne
    · intro err herr
      simp only [Ledger.recordEntries, hknown, hv, Bool.not_true,
        Bool.false_eq_true, if_false] at herr
      simp at herr
    · intro out _ c hc
      exact (Ledger.validateBalanceOk_iff reqs).mp hv c hc
  · have hv' : Ledger.validateBalanceOk reqs = false := by
      simpa using hv
    refine ⟨?_, ?_, ?_⟩
    · simp only [Ledger.recordEntries, hknown, hv', Bool.not_true,
        Bool.not_false, Bool.false_eq_true, if_false, if_true]
      constructor
      · intro _
        by_contra hall
        push_neg at hall
        exact hv ((Ledger.validateBalanceOk_iff reqs).mpr hall)
      · intro _; simp
    · intro err _
      simp only [Ledger.recordEntries, hknown, hv', Bool.not_true,
        Bool.not_false, Bool.false_eq_true, if_false, if_true]
    · intro out hout
      simp only [Ledger.recordEntries, hknown, hv', Bool.not_true,
        Bool.not_false, Bool.false_eq_true, if_false, if_true] at hout
      simp at hout

/-- Witness for C1 at a concrete unbalanced single-entry input. -/
theorem C1_recordEntries_balance_witness :
    (Ledger.recordEntries { transactionIds := ["t1"], entries := [] } "t1"
      [{ transactionId := "t1", accountCode := "1000", entryType := .DEBIT,
         amount := 5, currency := .USD }]).1 =
      .error (.unbalancedEntry "t1") :=
  (C1_recordEntries_balance
    { transactionIds := ["t1"], entries := [] } "t1"
    [{ transactionId := "t1", accountCode := "1000", entryType := .DEBIT,
       amount := 5, currency := .USD }]
    (by decide)).1.mpr ⟨.USD, by decide, by decide⟩

/-- C9 counterexample: the empty entry list (fewer than two entries) is
accepted by `recordEntries` for a known transaction id — the claimed
two-entry minimum is not enforced. -/
theorem C9_counterexample_empty_accepted :
    (Ledger.recordEntries { transactionIds := ["t1"], entries := [] } "t1"
      []).1 = .ok [] := rfl

/-- C9 (amended): `recordEntries` enforces no minimum entry count: for a
known transaction id the empty entry list is accepted (vacuously
balanced), while a single-entry list with nonzero amount is rejected as
`UnbalancedEntry`. -/
theorem C9_no_minimum_entry_count (st : Ledger.State) (tid : String)
    (hknown : st.transactionIds.contains tid = true) :
    ((Ledger.recordEntries st tid []).1 = .ok []) ∧
    (∀ e : Ledger.EntryRequest, e.amount ≠ 0 →
      (Ledger.recordEntries st tid [e]).1 = .error (.unbalancedEntry tid)) := by
  have hm : tid ∈ st.transactionIds := by simpa using hknown
  constructor
  · have hv : Ledger.validateBalanceOk [] = true := rfl
    simp [Ledger.recordEntries, hknown, hv, hm]
  · intro e he
    have hv : Ledger.validateBalanceOk [e] = false := by
      rw [Ledger.validateBalanceOk_single]
      simpa using he
    simp [Ledger.recordEntries, hknown, hv, hm]

/-- Witness for C9's amended theorem at a concrete state and entry. -/
theorem C9_no_minimum_entry_count_witness :
    ((Ledger.recordEntries { transactionIds := ["t1"], entries := [] } "t1"
        []).1 = .ok []) ∧
    ((Ledger.recordEntries { transactionIds := ["t1"], entries := [] } "t1"
        [{ transactionId := "t1", accountCode := "1000", entryType := .CREDIT,
           amount := 7, currency := .EUR }]).1 =
      .error (.unbalancedEntry "t1")) :=
  ⟨(C9_no_minimum_entry_count
      { transactionIds := ["t1"], entries := [] } "t1" (by decide)).1,
   (C9_no_minimum_entry_count
      { transactionIds := ["t1"], entries := [] } "t1" (by decide)).2
    { transactionId := "t1", accountCode := "1000", entryType := .CREDIT,
      amount := 7, currency := .EUR } (by decide)⟩

namespace CondEval

/-- A field check on an absent-or-full slot always returns. -/
theorem checkField_ok (name : String) (oc : Option FieldCond)
    (ctx : Routing.Context) (h : slotIsFull oc = true) :
    ∃ b, checkField name oc ctx = .ok b := by
  match oc with
  | none => exact ⟨true, rfl⟩
  | some (.full rc) => exact ⟨evaluateCondition rc ctx, rfl⟩
  | some (.simple v) => simp [slotIsFull] at h

end CondEval

/-- C8 counterexample: condition evaluation is not total — on the legacy
simple-value path the unguarded `isEqual` coerces both operands with
`BigInt(_)`, and `BigInt(10.5)` throws, so `evaluate` propagates an
exception to its caller instead of treating the error as a non-match. -/
theorem C8_counterexample_evaluate_throws :
    CondEval.evaluate c8conds c8ctx =
      .error "Cannot convert operand to BigInt" := rfl


/-- C8 (amended): the guarded paths of the evaluator are total — every
error in an operator comparison is treated as a non-match of that
condition, and when every named-field slot is absent or in full
`RuleCondition` format (no legacy simple value), `evaluate` never throws,
including the `all`/`any` groups and the `amountMin`/`amountMax`
shorthand; the legacy simple-value field path, however, propagates
conversion errors (see the counterexample). -/
theorem C8_evaluator_totality (conds : CondEval.RuleConditions)
    (ctx : Routing.Context)
    (h1 : CondEval.slotIsFull conds.currency = true)
    (h2 : CondEval.slotIsFull conds.amount = true)
    (h3 : CondEval.slotIsFull conds.paymentMethodType = true)
    (h4 : CondEval.slotIsFull conds.cardBrand = true)
    (h5 : CondEval.slotIsFull conds.country = true)
    (h6 : CondEval.slotIsFull conds.region = true) :
    (∀ (rc : CondEval.RuleCondition) (msg : String),
      CondEval.compareValues (CondEval.getFieldValue rc.field ctx)
          rc.operator rc.value = .error msg →
        CondEval.evaluateCondition rc ctx = false) ∧
    (∃ b, CondEval.evaluate conds ctx = .ok b) := by
  constructor
  · intro rc msg hmsg
    simp [CondEval.evaluateCondition, hmsg]
  · obtain ⟨b1, hb1⟩ := CondEval.checkField_ok "currency" conds.currency ctx h1
    obtain ⟨b2, hb2⟩ := CondEval.checkField_ok "amount" conds.amount ctx h2
    obtain ⟨b3, hb3⟩ :=
      CondEval.checkField_ok "paymentMethodType" conds.paymentMethodType ctx h3
    obtain ⟨b4, hb4⟩ := CondEval.checkField_ok "cardBrand" conds.cardBrand ctx h4
    obtain ⟨b5, hb5⟩ := CondEval.checkField_ok "country" conds.country ctx h5
    obtain ⟨b6, hb6⟩ := CondEval.checkField_ok "region" conds.region ctx h6
    simp only [CondEval.evaluate, hb1, hb2, hb3, hb4, hb5, hb6,
      CondEval.andThenB]
    cases b1 <;> cases b2 <;> cases b3 <;> cases b4 <;> cases b5 <;> cases b6 <;>
      simp only [CondEval.legacyBoundsCheck] <;>
      repeat' split
    all_goals exact ⟨_, rfl⟩

/-- Witness for C8's amended theorem: a full-format conditions object with
no legacy simple value evaluates without throwing. -/
theorem C8_evaluator_totality_witness :
    (∀ (rc : CondEval.RuleCondition) (msg : String),
      CondEval.compareValues (CondEval.getFieldValue rc.field c8ctx)
          rc.operator rc.value = .error msg →
        CondEval.evaluateCondition rc c8ctx = false) ∧
    (∃ b, CondEval.evaluate
      { currency := some (.full
          { field := "currency", operator := .equals, value := .str "USD" }) }
      c8ctx = .ok b) :=
  C8_evaluator_totality
    { currency := some (.full
        { field := "currency", operator := .equals, value := .str "USD" }) }
    c8ctx rfl rfl rfl rfl rfl rfl

namespace Routing

/-- Membership in the stable descending insertion. -/
theorem mem_insertByScoreDesc (a s : Score) (acc : List Score) :
    a ∈ insertByScoreDesc acc s ↔ a ∈ acc ∨ a = s := by
  induction acc with
  | nil => simp [insertByScoreDesc]
  | cons t ts ih =>
      by_cases h : t.totalScore < s.totalScore
      · simp [insertByScoreDesc, h]
        tauto
      · simp [insertByScoreDesc, h, ih]
        tauto

/-- Membership is preserved by the score sort. -/
theorem mem_sortByScoreDesc (a : Score) (l : List Score) :
    a ∈ sortByScoreDesc l ↔ a ∈ l := by
  suffices h : ∀ acc : List Score,
      a ∈ l.foldl insertByScoreDesc acc ↔ a ∈ acc ∨ a ∈ l by
    simpa using h []
  induction l with
  | nil => simp
  | cons x xs ih =>
      intro acc
      simp only [List.foldl_cons, ih, mem_insertByScoreDesc, List.mem_cons]
      tauto

/-- The score a provider evaluates to carries the provider's id. -/
theorem evaluateProvider_providerId (env : Env) (p : ProviderInfo)
    (ctx : Context) : (evaluateProvider env p ctx).providerId = p.id := by
  by_cases h : (checkEligibility p ctx).1 <;> simp [evaluateProvider, h]

/-- A score is marked eligible iff the hard eligibility check passed. -/
theorem evaluateProvider_eligible (env : Env) (p : ProviderInfo)
    (ctx : Context) :
    (evaluateProvider env p ctx).eligible = (checkEligibility p ctx).1 := by
  by_cases h : (checkEligibility p ctx).1 <;> simp [evaluateProvider, h]

/-- Any eligible score in `evaluateProviders` comes from a provider of the
input list that passes the hard eligibility check. -/
theorem eligible_score_sound (env : Env) (providers : List ProviderInfo)
    (ctx : Context) (s : Score) (hmem : s ∈ evaluateProviders env providers ctx)
    (helig : s.eligible = true) :
    ∃ p ∈ providers, p.id = s.providerId ∧ (checkEligibility p ctx).1 = true := by
  rw [evaluateProviders, mem_sortByScoreDesc, List.mem_map] at hmem
  obtain ⟨p, hp, hps⟩ := hmem
  refine ⟨p, hp, ?_, ?_⟩
  · rw [← hps, evaluateProvider_providerId]
  · rw [← evaluateProvider_eligible env p ctx, hps, helig]

end Routing

/-- C3 counterexample: on the rule-matched path `selectProvider` returns
the rule's target provider without any eligibility check — here a rule
matches a USD context and targets a provider that does not support USD,
and the provider is selected even though it fails the currency/method
eligibility check. -/
theorem C3_counterexample_rule_path_ineligible :
    ((Routing.selectProvider c3env [c3rule] [c3prov] c3ctx).map
        (fun d => d.selectedProviderId) = .ok "p1") ∧
    (Routing.checkEligibility c3prov c3ctx).1 = false ∧
    (Routing.checkEligibility c3prov c3ctx).2 =
      some "Currency USD not supported" :=
  ⟨rfl, rfl, rfl⟩

/-- C3 (amended): on the scoring path (no rule matched, `matchedRuleId`
is `none`) the selected provider and every fallback pass the hard
eligibility check; on the rule-matched path the target provider is only
required to be present in the merchant's active provider set and may
fail the check (see the counterexample). -/
theorem C3_selectProvider_eligibility (env : Routing.Env)
    (rules : List Routing.Rule) (providers : List Routing.ProviderInfo)
    (ctx : Routing.Context) (d : Routing.Decision)
    (hok : Routing.selectProvider env rules providers ctx = .ok d)
    (hscoring : d.matchedRuleId = none) :
    (∃ p ∈ providers, p.id = d.selectedProviderId ∧
      (Routing.checkEligibility p ctx).1 = true) ∧
    (∀ pid ∈ d.fallbackProviderIds, ∃ p ∈ providers, p.id = pid ∧
      (Routing.checkEligibility p ctx).1 = true) := by
  unfold Routing.selectProvider at hok
  split at hok
  · exact absurd hok (by simp)
  · split at hok
    · exact absurd hok (by simp)
    · split at hok
      · simp only [Except.ok.injEq] at hok
        rw [← hok] at hscoring
        simp at hscoring
      · dsimp only at hok
        split at hok
        · exact absurd hok (by simp)
        · rename_i heg
          simp only [Except.ok.injEq] at hok
          subst hok
          rename_i s rest
          have hmem_of : ∀ x : Routing.Score, x ∈ s :: rest →
              ∃ p ∈ providers, p.id = x.providerId ∧
                (Routing.checkEligibility p ctx).1 = true := by
            intro x hx
            rw [← heg] at hx
            have hx' := List.mem_filter.mp hx
            exact Routing.eligible_score_sound env providers ctx x
              hx'.1 (by simpa using hx'.2)
          constructor
          · exact hmem_of s (List.mem_cons_self s rest)
          · intro pid hpid
            simp only [List.mem_map] at hpid
            obtain ⟨x, hx, hxid⟩ := hpid
            have : x ∈ s :: rest :=
              List.mem_cons_of_mem s (List.mem_of_mem_take hx)
            obtain ⟨p, hp, hpid', helig⟩ := hmem_of x this
            exact ⟨p, hp, by rw [hpid', hxid], helig⟩

/-- Witness for C3's amended theorem: with no rules and one eligible
USD provider, the scoring path selects it and it passes eligibility. -/
theorem C3_selectProvider_eligibility_witness :
    ∃ p ∈ [c3wprov], p.id = "p1" ∧
      (Routing.checkEligibility p c3ctx).1 = true := by
  have h : ∃ d, Routing.selectProvider c3env [] [c3wprov] c3ctx = .ok d ∧
      d.matchedRuleId = none ∧ d.selectedProviderId = "p1" := ⟨_, rfl, rfl, rfl⟩
  obtain ⟨d, hok, hm, hsel⟩ := h
  have hc := (C3_selectProvider_eligibility c3env [] [c3wprov] c3ctx d hok hm).1
  rwa [hsel] at hc

/-- C4: when the idempotency lookup finds an existing transaction,
`createPayment` returns exactly that transaction and the state is
unchanged — no FX conversion, no routing decision, no provider call, no
new transaction row, no status-history append and no metrics update. -/
theorem C4_createPayment_idempotent (env : Payment.Env)
    (st : Payment.State) (req : Payment.CreatePaymentRequest)
    (t₀ : Payment.Txn) (hhit : Payment.idempotencyHit st req = some t₀) :
    Payment.createPayment env st req = (.ok t₀, st) ∧
    (Payment.createPayment env st req).2.fxCalls = st.fxCalls ∧
    (Payment.createPayment env st req).2.routingCalls = st.routingCalls ∧
    (Payment.createPayment env st req).2.authorizeCalls = st.authorizeCalls ∧
    (Payment.createPayment env st req).2.metricsUpdates = st.metricsUpdates ∧
    (Payment.createPayment env st req).2.transactions = st.transactions ∧
    (Payment.createPayment env st req).2.statusHistory = st.statusHistory ∧
    (∀ t, (Payment.createPayment env st req).1 = .ok t → t.id = t₀.id) := by
  have h : Payment.createPayment env st req = (.ok t₀, st) := by
    unfold Payment.createPayment
    rw [hhit]
  refine ⟨h, ?_, ?_, ?_, ?_, ?_, ?_, ?_⟩ <;> rw [h]
  intro t ht
  simp only [Except.ok.injEq] at ht
  rw [← ht]

/-- Witness for C4: resubmitting idempotency key `k1` against a store
already holding transaction `t0` with that key returns `t0` unchanged. -/
theorem C4_createPayment_idempotent_witness :
    Payment.createPayment payEnvOk c4st c4req =
      (.ok { id := "t0", merchantId := "m1",
             status := .COMPLETED, amount := 100, currency := .USD,
             providerId := some "p1", providerTransactionId := some "x0",
             idempotencyKey := some "k1" }, c4st) :=
  (C4_createPayment_idempotent payEnvOk c4st c4req
    { id := "t0", merchantId := "m1",
      status := .COMPLETED, amount := 100, currency := .USD,
      providerId := some "p1", providerTransactionId := some "x0",
      idempotencyKey := some "k1" } rfl).1

/-- C2 counterexample: a successful `capturePayment` on a PENDING
transaction records the single direct transition PENDING → COMPLETED,
which is outside the state machine the specification claims
(`PENDING → PROCESSING → {COMPLETED | FAILED}`, `COMPLETED → REFUNDED`,
`PENDING → CANCELLED`); no `InvalidStatusTransition` guard exists. -/
theorem C2_counterexample_capture_outside_graph :
    (∃ t, (Payment.capturePayment payEnvOk c2st "t1").1 = .ok t) ∧
    (Payment.capturePayment payEnvOk c2st "t1").2.statusHistory =
      [{ transactionId := "t1",
         fromStatus := some .PENDING, toStatus := .COMPLETED }] ∧
    (Payment.TransactionStatus.PENDING, Payment.TransactionStatus.COMPLETED)
      ∉ Payment.specTransitionGraph :=
  ⟨⟨_, rfl⟩, rfl, by decide⟩

/-- C2 (amended): the orchestrator guards each operation with a
source-status precondition rather than a transition graph:
`capturePayment` fails with `PaymentError.invalidStatus` (code
INVALID_STATUS — there is no `InvalidStatusTransition` error) whenever
the transaction is not PENDING, leaving the state unchanged; and every
successful capture performs exactly the direct transition
PENDING → COMPLETED, which lies outside the specification's claimed
graph. -/
theorem C2_capture_status_guard (env : Payment.Env)
    (st : Payment.State) (id : String) :
    (∀ t, Payment.findTxn st id = some t →
      t.status ≠ Payment.TransactionStatus.PENDING →
      Payment.capturePayment env st id =
        (.error (.invalidStatus id t.status .PENDING), st)) ∧
    (∀ out st', Payment.capturePayment env st id = (.ok out, st') →
      ∃ t, Payment.findTxn st id = some t ∧
        t.status = Payment.TransactionStatus.PENDING ∧
        st'.statusHistory = st.statusHistory ++
          [{ transactionId := id, fromStatus := some .PENDING,
             toStatus := .COMPLETED }] ∧
        (Payment.TransactionStatus.PENDING,
          Payment.TransactionStatus.COMPLETED)
          ∉ Payment.specTransitionGraph) := by
  constructor
  · intro t hfind hne
    unfold Payment.capturePayment
    rw [hfind]
    simp [hne]
  · intro out st' hok
    unfold Payment.capturePayment at hok
    split at hok
    · simp at hok
    · rename_i t hfind
      split at hok
      · simp at hok
      · rename_i hstne
        refine ⟨t, hfind, not_ne_iff.mp hstne, ?_, by decide⟩
        split at hok
        · split at hok
          · simp at hok
          · split at hok
            · simp at hok
            · dsimp only at hok
              simp only [Prod.mk.injEq] at hok
              rw [← hok.2]
              rfl
        · simp at hok

/-- Witness for C2's amended theorem: capturing the COMPLETED transaction
`t0` fails with `invalidStatus`, and the concrete successful capture of
the PENDING transaction `t1` appends exactly PENDING → COMPLETED. -/
theorem C2_capture_status_guard_witness :
    (Payment.capturePayment payEnvOk c4st "t0" =
      (.error (.invalidStatus "t0" .COMPLETED .PENDING), c4st)) ∧
    (∃ t, Payment.findTxn c2st "t1" = some t ∧
      t.status = Payment.TransactionStatus.PENDING ∧
      (Payment.capturePayment payEnvOk c2st "t1").2.statusHistory =
        c2st.statusHistory ++
        [{ transactionId := "t1", fromStatus := some .PENDING,
           toStatus := .COMPLETED }] ∧
      (Payment.TransactionStatus.PENDING,
        Payment.TransactionStatus.COMPLETED)
        ∉ Payment.specTransitionGraph) :=
  ⟨(C2_capture_status_guard payEnvOk c4st "t0").1
      { id := "t0", merchantId := "m1",
        status := .COMPLETED, amount := 100, currency := .USD,
        providerId := some "p1", providerTransactionId := some "x0",
        idempotencyKey := some "k1" } rfl (by decide),
   (C2_capture_status_guard payEnvOk c2st "t1").2 _ _ rfl⟩

namespace Payment

/-- `find?` by id over an id-preserving targeted map update. -/
theorem find_map_update (l : List Txn) (id : String) (f : Txn → Txn)
    (hf : ∀ t, (f t).id = t.id) :
    (l.map (fun t => if t.id == id then f t else t)).find?
        (fun t => t.id == id)
      = (l.find? (fun t => t.id == id)).map f := by
  induction l with
  | nil => rfl
  | cons t ts ih =>
    simp only [List.map_cons, List.find?_cons]
    by_cases h : (t.id == id) = true
    · rw [if_pos h]
      have h2 : ((f t).id == id) = true := by rw [hf t]; exact h
      simp only [h2, h]
      rfl
    · have h' : (t.id == id) = false := by simpa using h
      rw [if_neg (by simp [h'])]
      simp only [h', ih]

/-- `updateTxn` with an id-preserving function updates the row the lookup
sees. -/
theorem findTxn_updateTxn (st : State) (id : String) (f : Txn → Txn)
    (hf : ∀ t, (f t).id = t.id) :
    findTxn (updateTxn st id f) id = (findTxn st id).map f :=
  find_map_update st.transactions id f hf

/-- `updateTransactionStatus` sets exactly the status and failure reason
of the row the lookup sees. -/
theorem findTxn_updateTransactionStatus (st : State) (id : String)
    (status : TransactionStatus) (reason : Option String) :
    findTxn (updateTransactionStatus st id status reason) id =
      (findTxn st id).map
        (fun t => { t with status := status, failureReason := reason }) :=
  findTxn_updateTxn st id _ (fun _ => rfl)

end Payment

namespace Payment

/-- `markAllFailed` throws `AllProvidersFailed`, leaves the adapter-call
log unchanged, and marks the transaction FAILED with the last error's
message. -/
theorem markAllFailed_spec (st : State) (txnId : String)
    (lastErr : Option AttemptError)
    (hsome : (findTxn st txnId).isSome = true) :
    (markAllFailed st txnId lastErr).1 =
      .error (.allProvidersFailed (some txnId)) ∧
    (markAllFailed st txnId lastErr).2.authorizeCalls = st.authorizeCalls ∧
    ∃ t, findTxn (markAllFailed st txnId lastErr).2 txnId = some t ∧
      t.status = TransactionStatus.FAILED ∧
      t.failureReason = some (failReason lastErr) := by
  obtain ⟨t₀, ht₀⟩ := Option.isSome_iff_exists.mp hsome
  have hfd : findTxn (updateTransactionStatus st txnId
        TransactionStatus.FAILED (some (failReason lastErr))) txnId =
      some { t₀ with status := TransactionStatus.FAILED, failureReason := some (failReason lastErr) } := by
    rw [findTxn_updateTransactionStatus, ht₀]
    rfl
  exact ⟨rfl, rfl, ⟨_, hfd, rfl, rfl⟩⟩

/-- When the provider row exists, one attempt appends exactly one entry
to the adapter-call log. -/
theorem exec_calls (env : Env) (st : State) (txnId p : String)
    (hp : env.providerExists p = true) :
    (executePaymentWithProvider env st txnId p).2.authorizeCalls =
      st.authorizeCalls ++ [p] := by
  cases hauth : env.authorize p <;>
    (simp only [executePaymentWithProvider, hp, hauth, Bool.not_true,
      Bool.false_eq_true, if_false]; rfl)

/-- One attempt never creates or deletes the transaction row the lookup
sees. -/
theorem exec_findTxn_isSome (env : Env) (st : State) (txnId p : String) :
    (findTxn (executePaymentWithProvider env st txnId p).2 txnId).isSome =
      (findTxn st txnId).isSome := by
  by_cases hp : env.providerExists p
  · cases hauth : env.authorize p
    · simp only [executePaymentWithProvider, hp, hauth, Bool.not_true,
        Bool.false_eq_true, if_false]
      dsimp only [findTxn, updateTxn, recordStatusChange]
      rw [find_map_update]
      · rw [Option.isSome_map']
        rw [find_map_update]
        · rw [Option.isSome_map']
        · intro t; rfl
      · intro t; rfl
    · simp only [executePaymentWithProvider, hp, hauth, Bool.not_true,
        Bool.false_eq_true, if_false]
      dsimp only [findTxn, updateTxn, recordStatusChange]
      rw [find_map_update]
      · rw [Option.isSome_map']
      · intro t; rfl
    · simp only [executePaymentWithProvider, hp, hauth, Bool.not_true,
        Bool.false_eq_true, if_false]
      dsimp only [findTxn, updateTxn, recordStatusChange]
      rw [find_map_update]
      · rw [Option.isSome_map']
      · intro t; rfl
  · have hp' : env.providerExists p = false := by simpa using hp
    simp [executePaymentWithProvider, hp']

end Payment

namespace Payment

/-- Control flow of the provider-attempt loop: the adapter is called for
exactly `triedProviders` (in candidate order), and whenever the loop's
outcome is failure the call throws `AllProvidersFailed` and the
transaction ends FAILED carrying the final error's message. -/
theorem attemptLoop_spec (env : Env) (txnId : String) (ps : List String) :
    ∀ (st : State) (lastErr : Option AttemptError),
    (∀ p ∈ ps, env.providerExists p = true) →
    (findTxn st txnId).isSome = true →
    ((attemptLoop env txnId ps st lastErr).2.authorizeCalls
        = st.authorizeCalls ++ triedProviders env ps) ∧
    (∀ e, loopOutcome env ps lastErr = .failed e →
      (attemptLoop env txnId ps st lastErr).1 =
        .error (.allProvidersFailed (some txnId)) ∧
      ∃ t, findTxn (attemptLoop env txnId ps st lastErr).2 txnId = some t ∧
        t.status = TransactionStatus.FAILED ∧
        t.failureReason = some (failReason e)) := by
  induction ps with
  | nil =>
    intro st lastErr _ hsome
    obtain ⟨h1, h2, h3⟩ := markAllFailed_spec st txnId lastErr hsome
    refine ⟨?_, ?_⟩
    · show (markAllFailed st txnId lastErr).2.authorizeCalls = _
      rw [h2]
      simp [triedProviders]
    · intro e he
      have heq : lastErr = e := by simpa [loopOutcome] using he
      subst heq
      exact ⟨h1, h3⟩
  | cons p rest ih =>
    intro st lastErr hprov hsome
    have hp : env.providerExists p = true := hprov p (by simp)
    cases hauth : env.authorize p with
    | ok su stt ptid dr =>
      have hcls : classifyAttempt env p = .success := by
        simp [classifyAttempt, hp, hauth]
      have hred : (attemptLoop env txnId (p :: rest) st lastErr).2 =
          (executePaymentWithProvider env st txnId p).2 := by
        simp [attemptLoop, executePaymentWithProvider, hp, hauth]
      refine ⟨?_, ?_⟩
      · rw [hred, exec_calls env st txnId p hp]
        simp [triedProviders, hcls]
      · intro e he
        simp [loopOutcome, hcls] at he
    | providerError rb msg =>
      cases rb with
      | true =>
        have hcls : classifyAttempt env p =
            .retryableFail (.provider true msg) := by
          simp [classifyAttempt, hp, hauth]
        have hred : attemptLoop env txnId (p :: rest) st lastErr =
            attemptLoop env txnId rest
              (executePaymentWithProvider env st txnId p).2
              (some (.provider true msg)) := by
          simp [attemptLoop, executePaymentWithProvider, hp, hauth]
        have hsome' : (findTxn (executePaymentWithProvider env st txnId p).2
            txnId).isSome = true := by
          rw [exec_findTxn_isSome]; exact hsome
        have hprov' : ∀ q ∈ rest, env.providerExists q = true :=
          fun q hq => hprov q (List.mem_cons_of_mem _ hq)
        obtain ⟨ih1, ih2⟩ := ih (executePaymentWithProvider env st txnId p).2
          (some (.provider true msg)) hprov' hsome'
        refine ⟨?_, ?_⟩
        · rw [hred, ih1, exec_calls env st txnId p hp]
          simp [triedProviders, hcls]
        · intro e he
          have he' : loopOutcome env rest (some (.provider true msg)) =
              .failed e := by
            simpa [loopOutcome, hcls] using he
          rw [hred]
          exact ih2 e he'
      | false =>
        have hcls : classifyAttempt env p =
            .fatalFail (.provider false msg) := by
          simp [classifyAttempt, hp, hauth]
        have hred : attemptLoop env txnId (p :: rest) st lastErr =
            markAllFailed (executePaymentWithProvider env st txnId p).2 txnId
              (some (.provider false msg)) := by
          simp [attemptLoop, executePaymentWithProvider, hp, hauth]
        have hsome' : (findTxn (executePaymentWithProvider env st txnId p).2
            txnId).isSome = true := by
          rw [exec_findTxn_isSome]; exact hsome
        obtain ⟨h1, h2, h3⟩ := markAllFailed_spec _ txnId
          (some (.provider false msg)) hsome'
        refine ⟨?_, ?_⟩
        · rw [hred, h2, exec_calls env st txnId p hp]
          simp [triedProviders, hcls]
        · intro e he
          have he' : some (AttemptError.provider false msg) = e := by
            simpa [loopOutcome, hcls] using he
          subst he'
          rw [hred]
          exact ⟨h1, h3⟩
    | otherError msg =>
      have hcls : classifyAttempt env p = .fatalFail (.plain msg) := by
        simp [classifyAttempt, hp, hauth]
      have hred : attemptLoop env txnId (p :: rest) st lastErr =
          markAllFailed (executePaymentWithProvider env st txnId p).2 txnId
            (some (.plain msg)) := by
        simp [attemptLoop, executePaymentWithProvider, hp, hauth]
      have hsome' : (findTxn (executePaymentWithProvider env st txnId p).2
          txnId).isSome = true := by
        rw [exec_findTxn_isSome]; exact hsome
      obtain ⟨h1, h2, h3⟩ := markAllFailed_spec _ txnId
        (some (.plain msg)) hsome'
      refine ⟨?_, ?_⟩
      · rw [hred, h2, exec_calls env st txnId p hp]
        simp [triedProviders, hcls]
      · intro e he
        have he' : some (AttemptError.plain msg) = e := by
          simpa [loopOutcome, hcls] using he
        subst he'
        rw [hred]
        exact ⟨h1, h3⟩

end Payment

namespace Payment

/-- The loop never tries more providers than it was given. -/
theorem triedProviders_length_le (env : Env) (ps : List String) :
    (triedProviders env ps).length ≤ ps.length := by
  induction ps with
  | nil => simp [triedProviders]
  | cons p rest ih =>
      cases hc : classifyAttempt env p
      all_goals simp [triedProviders, hc]
      all_goals omega

/-- `find?` skips a prefix with no match. -/
theorem find_append_none {α : Type} (p : α → Bool) (l1 l2 : List α)
    (h : l1.find? p = none) : (l1 ++ l2).find? p = l2.find? p := by
  induction l1 with
  | nil => rfl
  | cons x xs ih =>
      rw [List.find?_cons] at h
      rw [List.cons_append, List.find?_cons]
      cases hx : p x with
      | true => simp [hx] at h
      | false =>
          simp only [hx] at h ⊢
          exact ih h

/-- The pre-loop state's adapter-call log is the caller's. -/
theorem preLoopState_authorizeCalls (env : Env) (st : State)
    (req : CreatePaymentRequest) :
    (preLoopState env st req).authorizeCalls = st.authorizeCalls := by
  unfold preLoopState
  by_cases hfx : (fxStep env req).isSome <;> simp [hfx, recordStatusChange]

/-- The freshly inserted PENDING row is visible to the loop. -/
theorem preLoopState_findTxn (env : Env) (st : State)
    (req : CreatePaymentRequest)
    (hfresh : ∀ t ∈ st.transactions, t.id ≠ env.newTxnId) :
    (findTxn (preLoopState env st req) env.newTxnId).isSome = true := by
  have hnone : st.transactions.find?
      (fun t => t.id == env.newTxnId) = none := by
    rw [List.find?_eq_none]
    intro t ht
    simpa using hfresh t ht
  unfold preLoopState
  by_cases hfx : (fxStep env req).isSome <;>
    simp [hfx, findTxn, recordStatusChange, find_append_none _ _ _ hnone,
      List.find?_cons]

end Payment

/-- C5: in a run of `createPayment` that misses the idempotency cache and
obtains a routing decision, provider authorize attempts are made
sequentially in candidate order [selected, then fallbacks], capped at
`MAX_PROVIDER_RETRIES = 3`; the adapter-call log records exactly
`triedProviders` (which stops after the first success or the first
non-retryable error); and whenever the loop outcome is failure the
transaction is marked FAILED with the last error's message and the call
throws `AllProvidersFailed`. -/
theorem C5_provider_attempt_policy (env : Payment.Env) (st : Payment.State)
    (req : Payment.CreatePaymentRequest) (decision : Payment.RouteChoice)
    (hmiss : Payment.idempotencyHit st req = none)
    (hroute : env.selectProvider (Payment.routingContextOf env req) =
      .ok decision)
    (hfresh : ∀ t ∈ st.transactions, t.id ≠ env.newTxnId)
    (hprov : ∀ p ∈ (decision.selectedProviderId ::
        decision.fallbackProviderIds).take Payment.MAX_PROVIDER_RETRIES,
      env.providerExists p = true) :
    ((Payment.createPayment env st req).2.authorizeCalls =
      st.authorizeCalls ++ Payment.triedProviders env
        ((decision.selectedProviderId ::
          decision.fallbackProviderIds).take Payment.MAX_PROVIDER_RETRIES)) ∧
    ((Payment.triedProviders env
        ((decision.selectedProviderId ::
          decision.fallbackProviderIds).take
            Payment.MAX_PROVIDER_RETRIES)).length ≤
      Payment.MAX_PROVIDER_RETRIES) ∧
    (∀ e, Payment.loopOutcome env
        ((decision.selectedProviderId ::
          decision.fallbackProviderIds).take Payment.MAX_PROVIDER_RETRIES)
        none = .failed e →
      (Payment.createPayment env st req).1 =
        .error (.allProvidersFailed (some env.newTxnId)) ∧
      ∃ t, Payment.findTxn (Payment.createPayment env st req).2
          env.newTxnId = some t ∧
        t.status = Payment.TransactionStatus.FAILED ∧
        t.failureReason = some (Payment.failReason e)) := by
  have hred : Payment.createPayment env st req =
      Payment.attemptLoop env env.newTxnId
        ((decision.selectedProviderId ::
          decision.fallbackProviderIds).take Payment.MAX_PROVIDER_RETRIES)
        (Payment.preLoopState env st req) none := by
    simp [Payment.createPayment, Payment.preLoopState, hmiss, hroute]
  have hsome := Payment.preLoopState_findTxn env st req hfresh
  obtain ⟨l1, l2⟩ := Payment.attemptLoop_spec env env.newTxnId
    ((decision.selectedProviderId ::
      decision.fallbackProviderIds).take Payment.MAX_PROVIDER_RETRIES)
    (Payment.preLoopState env st req) none hprov hsome
  refine ⟨?_, ?_, ?_⟩
  · rw [hred, l1, Payment.preLoopState_authorizeCalls]
  · calc (Payment.triedProviders env _).length
        ≤ ((decision.selectedProviderId ::
            decision.fallbackProviderIds).take
              Payment.MAX_PROVIDER_RETRIES).length :=
          Payment.triedProviders_length_le env _
      _ ≤ Payment.MAX_PROVIDER_RETRIES := by
          rw [List.length_take]
          exact min_le_left _ _
  · intro e he
    rw [hred]
    exact l2 e he

/-- Witness for C5: the selected provider fails retryably, the single
fallback fails non-retryably, so both are tried in order, the
transaction ends FAILED with the fallback's message, and the call throws
`AllProvidersFailed`. -/
theorem C5_provider_attempt_policy_witness :
    ((Payment.createPayment c5env c5st c5req).2.authorizeCalls =
      ["p1", "p2"]) ∧
    ((Payment.createPayment c5env c5st c5req).1 =
      .error (.allProvidersFailed (some "t9"))) ∧
    (∃ t, Payment.findTxn (Payment.createPayment c5env c5st c5req).2 "t9" =
        some t ∧
      t.status = Payment.TransactionStatus.FAILED ∧
      t.failureReason = some "card declined") := by
  obtain ⟨h1, _h2, h3⟩ := C5_provider_attempt_policy c5env c5st c5req
    { selectedProviderId := "p1", fallbackProviderIds := ["p2"] }
    rfl rfl (by intro t ht; simp [c5st] at ht) (by intro p _; rfl)
  obtain ⟨h4, h5⟩ := h3 (some (.provider false "card declined")) rfl
  exact ⟨by rw [h1]; rfl, h4, h5⟩

namespace Recon

/-- Every discrepancy the provider pass emits is unresolved. -/
theorem providerPass_resolution_none (locals : List LocalTxn) :
    ∀ (s : List SettlementRecord) (idx : Nat),
      ∀ d ∈ (providerPass locals s idx).1, d.resolution = none := by
  intro s
  induction s with
  | nil => intro idx d hd; simp [providerPass] at hd
  | cons r rest ih =>
      intro idx d hd
      unfold providerPass at hd
      cases hl : localLookup locals r.transactionId with
      | none =>
          rw [hl] at hd
          simp only [List.mem_cons] at hd
          rcases hd with hd | hd
          · rw [hd]
          · exact ih _ d hd
      | some t =>
          rw [hl] at hd
          dsimp only at hd
          rw [List.mem_append] at hd
          rcases hd with hd | hd
          · by_cases ha : t.amount ≠ r.amount <;>
              by_cases hs : t.status ≠ r.status <;>
              simp [ha, hs] at hd <;>
              first
                | (rcases hd with hd | hd <;> rw [hd])
                | rw [hd]
          · exact ih _ d hd

/-- Every discrepancy the local pass emits is unresolved. -/
theorem localPass_resolution_none (sids : List String) :
    ∀ (l : List LocalTxn) (idx : Nat),
      ∀ d ∈ (localPass sids l idx).1, d.resolution = none := by
  intro l
  induction l with
  | nil => intro idx d hd; simp [localPass] at hd
  | cons t rest ih =>
      intro idx d hd
      unfold localPass at hd
      by_cases hc : sids.contains t.id
      · rw [if_pos hc] at hd
        exact ih _ d hd
      · rw [if_neg hc] at hd
        simp only [List.mem_cons] at hd
        rcases hd with hd | hd
        · rw [hd]
        · exact ih _ d hd

/-- Every discrepancy `reconcile` creates is unresolved. -/
theorem reconcile_resolution_none (rid : String)
    (s : List SettlementRecord) (l : List LocalTxn) :
    ∀ d ∈ (reconcile rid s l).discrepancies, d.resolution = none := by
  intro d hd
  unfold reconcile at hd
  dsimp only at hd
  rw [List.mem_append] at hd
  rcases hd with hd | hd
  · exact providerPass_resolution_none l s 0 d hd
  · exact localPass_resolution_none _ l _ d hd

/-- The created report is COMPLETED iff every discrepancy is resolved,
and REQUIRES_REVIEW iff some discrepancy exists. -/
theorem reconcile_status_iff (rid : String) (s : List SettlementRecord)
    (l : List LocalTxn) :
    ((reconcile rid s l).status = .COMPLETED ↔
      ∀ d ∈ (reconcile rid s l).discrepancies, d.resolution.isSome) ∧
    ((reconcile rid s l).status = .REQUIRES_REVIEW ↔
      (reconcile rid s l).discrepancies ≠ []) := by
  have hnone := reconcile_resolution_none rid s l
  cases hd : (reconcile rid s l).discrepancies with
  | nil =>
      have hst : (reconcile rid s l).status = .COMPLETED := by
        unfold reconcile at hd ⊢
        dsimp only at hd ⊢
        rw [hd]
        rfl
      constructor
      · simp [hst, hd]
      · simp [hst, hd]
  | cons d₀ ds =>
      have hst : (reconcile rid s l).status = .REQUIRES_REVIEW := by
        unfold reconcile at hd ⊢
        dsimp only at hd ⊢
        rw [hd]
        simp
      have h₀ : d₀.resolution = none := by
        apply hnone
        rw [hd]
        exact List.mem_cons_self _ _
      constructor
      · constructor
        · intro h
          rw [hst] at h
          exact absurd h (by decide)
        · intro hall
          exfalso
          have hs := hall d₀ (List.mem_cons_self _ _)
          rw [h₀] at hs
          cases hs
      · simp [hst, hd]

end Recon

namespace Recon

/-- A successful `resolveIn` splits the list at the first discrepancy
with the given id and overwrites exactly that element's resolution. -/
theorem resolveIn_decomp (did : String) (res : Resolution)
    (resolver : Option String) (now : Nat) :
    ∀ (l l' : List Discrepancy),
      resolveIn did res resolver now l = some l' →
      ∃ pre d post, l = pre ++ d :: post ∧
        (∀ x ∈ pre, (x.id == did) = false) ∧
        (d.id == did) = true ∧
        l' = pre ++ ({ d with resolution := some res, resolvedAt := some now, resolvedBy := resolver } :: post) := by
  intro l
  induction l with
  | nil => intro l' h; simp [resolveIn] at h
  | cons d rest ih =>
      intro l' h
      unfold resolveIn at h
      by_cases hid : (d.id == did) = true
      · rw [if_pos hid] at h
        refine ⟨[], d, rest, by simp, by simp, hid, ?_⟩
        simpa using h.symm
      · rw [if_neg hid] at h
        cases hrec : resolveIn did res resolver now rest with
        | none => rw [hrec] at h; simp at h
        | some rest' =>
            rw [hrec] at h
            obtain ⟨pre, d₀, post, hsplit, hpre, hd₀, hres⟩ := ih rest' hrec
            refine ⟨d :: pre, d₀, post, ?_, ?_, hd₀, ?_⟩
            · rw [hsplit]; rfl
            · intro x hx
              rcases List.mem_cons.mp hx with hx | hx
              · rw [hx]; simpa using hid
              · exact hpre x hx
            · have hl' : l' = d :: rest' := by
                simpa using h.symm
              rw [hl', hres]
              rfl

end Recon

/-- C7: a reconciliation report is COMPLETED iff every discrepancy is
resolved — `reconcile` creates it REQUIRES_REVIEW exactly when a
discrepancy exists (all created discrepancies being unresolved), a
resolve call (which overwrites any prior resolution) preserves the
invariant, the transition REQUIRES_REVIEW → COMPLETED happens exactly
when the named discrepancy was the last unresolved one, and that flip
stamps `reviewedAt`. -/
theorem C7_report_completion (rid : String) (s : List Recon.SettlementRecord)
    (l : List Recon.LocalTxn) (report : Recon.Report) (did : String)
    (res : Recon.Resolution) (resolver : Option String) (now : Nat)
    (r' : Recon.Report)
    (hinv : report.status = .COMPLETED ↔
      ∀ d ∈ report.discrepancies, d.resolution.isSome)
    (hnodup : (report.discrepancies.map (fun d => d.id)).Nodup)
    (hok : Recon.resolveDiscrepancy report did res resolver now = .ok r') :
    ((Recon.reconcile rid s l).status = .COMPLETED ↔
      ∀ d ∈ (Recon.reconcile rid s l).discrepancies, d.resolution.isSome) ∧
    ((Recon.reconcile rid s l).status = .REQUIRES_REVIEW ↔
      (Recon.reconcile rid s l).discrepancies ≠ []) ∧
    (r'.status = .COMPLETED ↔ ∀ d ∈ r'.discrepancies, d.resolution.isSome) ∧
    ((report.status = .REQUIRES_REVIEW ∧ r'.status = .COMPLETED) ↔
      (∃ d ∈ report.discrepancies, d.id = did ∧ d.resolution = none ∧
        ∀ d' ∈ report.discrepancies, d'.id ≠ did → d'.resolution.isSome)) ∧
    (report.status = .REQUIRES_REVIEW ∧ r'.status = .COMPLETED →
      r'.reviewedAt = some now) := by
  obtain ⟨hA, hB⟩ := Recon.reconcile_status_iff rid s l
  refine ⟨hA, hB, ?_⟩
  unfold Recon.resolveDiscrepancy at hok
  cases hres : Recon.resolveIn did res resolver now report.discrepancies with
  | none => rw [hres] at hok; exact absurd hok (by simp)
  | some ds =>
    rw [hres] at hok
    simp only [Except.ok.injEq] at hok
    subst hok
    obtain ⟨pre, d₀, post, hsplit, hpre, hd₀, hds⟩ :=
      Recon.resolveIn_decomp did res resolver now report.discrepancies ds hres
    have hd₀eq : d₀.id = did := by simpa using hd₀
    have hpostid : ∀ x ∈ post, x.id ≠ did := by
      intro x hx hxid
      rw [hsplit, List.map_append, List.map_cons] at hnodup
      have h2 := hnodup.of_append_right
      have h3 := (List.nodup_cons.mp h2).1
      exact h3 (by rw [hd₀eq, ← hxid]; exact List.mem_map_of_mem _ hx)
    by_cases hall : ds.all (fun d => d.resolution.isSome) = true
    · have hallds : ∀ d ∈ ds, d.resolution.isSome := List.all_eq_true.mp hall
      have hprer : ∀ x ∈ pre, x.resolution.isSome = true := by
        intro x hx
        exact hallds x (by rw [hds]; exact List.mem_append_left _ hx)
      have hpostr : ∀ x ∈ post, x.resolution.isSome = true := by
        intro x hx
        refine hallds x ?_
        rw [hds]
        exact List.mem_append_right _ (List.mem_cons_of_mem _ hx)
      refine ⟨?_, ?_, ?_⟩
      · constructor
        · intro _; exact hallds
        · intro _; simp [hall]
      · have hstC : ∀ (x y : Recon.ReportStatus),
            (if (ds.all fun d => d.resolution.isSome) = true then x else y) = x := by
          intro x y; rw [if_pos hall]
        constructor
        · rintro ⟨hrr, -⟩
          have hnotall : ¬ ∀ d ∈ report.discrepancies, d.resolution.isSome := by
            intro hcontra
            have := hinv.mpr hcontra
            rw [hrr] at this
            cases this
          have hd₀none : d₀.resolution = none := by
            by_contra hne
            apply hnotall
            intro d hd
            rw [hsplit] at hd
            rcases List.mem_append.mp hd with hd | hd
            · exact hprer d hd
            · rcases List.mem_cons.mp hd with hd | hd
              · subst hd
                cases hro : d.resolution with
                | none => exact absurd hro hne
                | some v => simp [hro]
              · exact hpostr d hd
          refine ⟨d₀, ?_, hd₀eq, hd₀none, ?_⟩
          · rw [hsplit]
            exact List.mem_append_right _ (List.mem_cons_self _ _)
          intro d' hd' hne
          rw [hsplit] at hd'
          rcases List.mem_append.mp hd' with hd' | hd'
          · exact hprer d' hd'
          · rcases List.mem_cons.mp hd' with hd' | hd'
            · subst hd'; exact absurd hd₀eq hne
            · exact hpostr d' hd'
        · rintro ⟨dstar, hmem, -, hnone, -⟩
          refine ⟨?_, by simp [hall]⟩
          have hnot : ¬ ∀ d ∈ report.discrepancies, d.resolution.isSome := by
            intro hcontra
            have := hcontra dstar hmem
            rw [hnone] at this
            cases this
          cases hrs : report.status with
          | REQUIRES_REVIEW => rfl
          | COMPLETED => exact absurd (hinv.mp hrs) hnot
      · intro _
        simp [hall]
    · refine ⟨?_, ?_, ?_⟩
      · simp only [hall, if_false]
        refine iff_of_false (by decide) ?_
        intro hcontra
        exact hall (List.all_eq_true.mpr hcontra)
      · simp only [hall, if_false]
        refine iff_of_false (by rintro ⟨-, h⟩; cases h) ?_
        rintro ⟨dstar, hmem, hid, -, hothers⟩
        apply hall
        rw [List.all_eq_true]
        intro d hd
        rw [hds] at hd
        rcases List.mem_append.mp hd with hd | hd
        · refine hothers d (by rw [hsplit]; exact List.mem_append_left _ hd) ?_
          have := hpre d hd
          simpa using this
        · rcases List.mem_cons.mp hd with hd | hd
          · rw [hd]; rfl
          · exact hothers d
              (by rw [hsplit];
                  exact List.mem_append_right _ (List.mem_cons_of_mem _ hd))
              (hpostid d hd)
      · rintro ⟨-, h⟩
        simp only [hall, if_false] at h
        cases h

/-- Witness for C7: resolving the only (hence last) unresolved
discrepancy of a report under review flips it to COMPLETED and stamps
`reviewedAt`. -/
theorem C7_report_completion_witness :
    ∃ r', Recon.resolveDiscrepancy c7report "d1" .forceMatch (some "ops") 5 =
        .ok r' ∧
      r'.status = Recon.ReportStatus.COMPLETED ∧ r'.reviewedAt = some 5 := by
  obtain ⟨r', hr⟩ : ∃ r', Recon.resolveDiscrepancy c7report "d1" .forceMatch
      (some "ops") 5 = .ok r' := ⟨_, rfl⟩
  have h := C7_report_completion "r0" [] [] c7report "d1" .forceMatch
    (some "ops") 5 r' (by decide) (by decide) hr
  have hex : ∃ d ∈ c7report.discrepancies, d.id = "d1" ∧
      d.resolution = none ∧ ∀ d' ∈ c7report.discrepancies,
        d'.id ≠ "d1" → d'.resolution.isSome := by decide
  have hflip := (h.2.2.2.1).mpr hex
  exact ⟨r', hr, hflip.2, h.2.2.2.2 hflip⟩

/-- C10: the report's `unmatchedTransactions` equals the number of
discrepancy records (a transaction id is counted once per discrepancy,
not once per id); consequently, when one transaction mismatches on both
amount and status, `matchedTransactions + unmatchedTransactions`
exceeds `totalTransactions`. -/
theorem C10_unmatched_counts_discrepancy_records :
    (∀ (rid : String) (s : List Recon.SettlementRecord)
        (l : List Recon.LocalTxn),
      (Recon.reconcile rid s l).unmatchedTransactions =
        (Recon.reconcile rid s l).discrepancies.length) ∧
    ((Recon.reconcile "r1" c10settlement c10locals).discrepancies.length
        = 2) ∧
    ((Recon.reconcile "r1" c10settlement c10locals).matchedTransactions +
        (Recon.reconcile "r1" c10settlement c10locals).unmatchedTransactions
      > (Recon.reconcile "r1" c10settlement c10locals).totalTransactions) :=
  ⟨fun _ _ _ => rfl, by decide, by decide⟩

namespace Recon

/-- Membership is preserved by `eraseDups`. -/
theorem mem_eraseDups (x : String) (l : List String) :
    x ∈ l.eraseDups ↔ x ∈ l := by
  suffices h : ∀ (as bs : List String),
      x ∈ List.eraseDups.loop as bs ↔ x ∈ bs ∨ x ∈ as by
    simpa using h l []
  intro as
  induction as with
  | nil => intro bs; simp [List.eraseDups.loop]
  | cons a rest ih =>
      intro bs
      unfold List.eraseDups.loop
      cases hab : List.elem a bs with
      | true =>
          show x ∈ List.eraseDups.loop rest bs ↔ _
          rw [ih]
          have ha : a ∈ bs := by simpa using hab
          constructor
          · rintro (h | h)
            · exact Or.inl h
            · exact Or.inr (List.mem_cons_of_mem _ h)
          · rintro (h | h)
            · exact Or.inl h
            · rcases List.mem_cons.mp h with h | h
              · subst h; exact Or.inl ha
              · exact Or.inr h
      | false =>
          show x ∈ List.eraseDups.loop rest (a :: bs) ↔ _
          rw [ih]
          constructor
          · rintro (h | h)
            · rcases List.mem_cons.mp h with h | h
              · exact Or.inr (List.mem_cons.mpr (Or.inl h))
              · exact Or.inl h
            · exact Or.inr (List.mem_cons_of_mem _ h)
          · rintro (h | h)
            · exact Or.inl (List.mem_cons_of_mem _ h)
            · rcases List.mem_cons.mp h with h | h
              · exact Or.inl (List.mem_cons.mpr (Or.inl h))
              · exact Or.inr h

/-- A duplicate-free key list makes the key function injective on the
list. -/
theorem nodup_key_inj {α : Type} (key : α → String) (l : List α)
    (h : (l.map key).Nodup) :
    ∀ a ∈ l, ∀ b ∈ l, key a = key b → a = b := by
  induction l with
  | nil => intro a ha; simp at ha
  | cons c cs ih =>
      rw [List.map_cons, List.nodup_cons] at h
      intro a ha b hb hk
      rcases List.mem_cons.mp ha with ha | ha <;>
        rcases List.mem_cons.mp hb with hb | hb
      · rw [ha, hb]
      · exfalso
        apply h.1
        have hcb : key c = key b := by rw [← ha]; exact hk
        rw [hcb]
        exact List.mem_map_of_mem _ hb
      · exfalso
        apply h.1
        have hca : key c = key a := by rw [← hb]; exact hk.symm
        rw [hca]
        exact List.mem_map_of_mem _ ha
      · exact ih h.2 a ha b hb hk

end Recon

namespace Recon

/-- The first loop's match counter counts exactly the settlement records
whose local counterpart matches on amount and status. -/
theorem providerPass_matched (locals : List LocalTxn) :
    ∀ (s : List SettlementRecord) (idx : Nat),
      (providerPass locals s idx).2.1 =
        (s.filter (recordMatches locals)).length := by
  intro s
  induction s with
  | nil => intro idx; rfl
  | cons r rest ih =>
      intro idx
      unfold providerPass
      cases hl : localLookup locals r.transactionId with
      | none =>
          have hm : recordMatches locals r = false := by
            simp [recordMatches, hl]
          simp [hm, ih, List.filter_cons]
      | some t =>
          have hm : recordMatches locals r =
              (t.amount == r.amount && t.status == r.status) := by
            simp [recordMatches, hl]
          by_cases ha : t.amount = r.amount <;>
            by_cases hs2 : t.status = r.status
          all_goals simp [hm, ha, hs2, ih, List.filter_cons]
          all_goals omega

/-- The ids named by the first loop's discrepancies are exactly the
settlement-record ids whose record fails to match. -/
theorem providerPass_tid (locals : List LocalTxn) :
    ∀ (s : List SettlementRecord) (idx : Nat) (x : String),
      (∃ d ∈ (providerPass locals s idx).1, d.transactionId = x) ↔
        ∃ r ∈ s, r.transactionId = x ∧ recordMatches locals r = false := by
  intro s
  induction s with
  | nil => intro idx x; simp [providerPass]
  | cons r rest ih =>
      intro idx x
      unfold providerPass
      cases hl : localLookup locals r.transactionId with
      | none =>
          have hm : recordMatches locals r = false := by
            simp [recordMatches, hl]
          simp only [List.exists_mem_cons_iff, ih, hm]
          simp
      | some t =>
          have hm : recordMatches locals r =
              (t.amount == r.amount && t.status == r.status) := by
            simp [recordMatches, hl]
          by_cases ha : t.amount = r.amount <;>
            by_cases hs2 : t.status = r.status
          all_goals simp [hm, ha, hs2, ih, List.exists_mem_cons_iff]

/-- The ids named by the second loop's discrepancies are exactly the
local ids absent from the settlement. -/
theorem localPass_tid (sids : List String) :
    ∀ (l : List LocalTxn) (idx : Nat) (x : String),
      (∃ d ∈ (localPass sids l idx).1, d.transactionId = x) ↔
        ∃ t ∈ l, t.id = x ∧ sids.contains t.id = false := by
  intro l
  induction l with
  | nil => intro idx x; simp [localPass]
  | cons t rest ih =>
      intro idx x
      unfold localPass
      by_cases hc : sids.contains t.id
      · rw [if_pos hc]
        simp only [ih, List.exists_mem_cons_iff, hc]
        simp
      · have hc' : sids.contains t.id = false := by simpa using hc
        rw [if_neg hc]
        simp only [List.exists_mem_cons_iff, ih, hc']
        simp

end Recon

/-- C6: for a reconcile run over settlement data with distinct
transaction ids, `totalTransactions` is the size of the union of
provider and local id sets, an id is counted in `matchedTransactions`
iff no discrepancy of any type names it (`matchedTransactions` equals
the number of matched settlement records), and every id of the union is
accounted for either as matched or by at least one discrepancy naming
it. -/
theorem C6_reconcile_accounting (rid : String)
    (s : List Recon.SettlementRecord) (l : List Recon.LocalTxn)
    (hs : (s.map (fun r => r.transactionId)).Nodup) :
    ((Recon.reconcile rid s l).totalTransactions =
      (Recon.unionIds s l).length) ∧
    ((Recon.reconcile rid s l).matchedTransactions =
      (Recon.matchedIds s l).length) ∧
    (∀ x ∈ Recon.unionIds s l,
      (x ∈ Recon.matchedIds s l ↔
        ∀ d ∈ (Recon.reconcile rid s l).discrepancies,
          d.transactionId ≠ x)) ∧
    (∀ x ∈ Recon.unionIds s l,
      x ∈ Recon.matchedIds s l ∨
        ∃ d ∈ (Recon.reconcile rid s l).discrepancies,
          d.transactionId = x) := by
  have hdisc : (Recon.reconcile rid s l).discrepancies =
      (Recon.providerPass l s 0).1 ++
        (Recon.localPass (s.map (fun r => r.transactionId)) l
          (Recon.providerPass l s 0).2.2).1 := rfl
  have hmatched : ∀ x, x ∈ Recon.matchedIds s l ↔
      ∃ r ∈ s, r.transactionId = x ∧ Recon.recordMatches l r = true := by
    intro x
    unfold Recon.matchedIds
    constructor
    · intro hx
      obtain ⟨r, hr, hrx⟩ := List.mem_map.mp hx
      obtain ⟨hrs, hrm⟩ := List.mem_filter.mp hr
      exact ⟨r, hrs, hrx, hrm⟩
    · rintro ⟨r, hrs, hrx, hrm⟩
      exact List.mem_map.mpr ⟨r, List.mem_filter.mpr ⟨hrs, hrm⟩, hrx⟩
  have hthird : ∀ x ∈ Recon.unionIds s l,
      (x ∈ Recon.matchedIds s l ↔
        ∀ d ∈ (Recon.reconcile rid s l).discrepancies,
          d.transactionId ≠ x) := by
    intro x hx
    constructor
    · intro hxm d hd hdx
      obtain ⟨r, hrs, hrx, hrm⟩ := (hmatched x).mp hxm
      rw [hdisc] at hd
      rcases List.mem_append.mp hd with hd | hd
      · obtain ⟨r', hr's, hr'x, hr'm⟩ :=
          (Recon.providerPass_tid l s 0 x).mp ⟨d, hd, hdx⟩
        have : r = r' := Recon.nodup_key_inj _ s hs r hrs r' hr's
          (by rw [hrx, hr'x])
        rw [this, hr'm] at hrm
        cases hrm
      · obtain ⟨t, htl, htx, htc⟩ :=
          (Recon.localPass_tid _ l _ x).mp ⟨d, hd, hdx⟩
        have hmem : t.id ∈ s.map (fun r => r.transactionId) := by
          rw [htx, ← hrx]
          exact List.mem_map_of_mem _ hrs
        have hmem' : t.id ∉ s.map (fun r => r.transactionId) := by
          simpa using htc
        exact hmem' hmem
    · intro hall
      by_cases hxs : x ∈ s.map (fun r => r.transactionId)
      · obtain ⟨r, hrs, hrx⟩ := List.mem_map.mp hxs
        refine (hmatched x).mpr ⟨r, hrs, hrx, ?_⟩
        by_contra hrm
        have hrm' : Recon.recordMatches l r = false := by
          simpa using hrm
        obtain ⟨d, hd, hdx⟩ := (Recon.providerPass_tid l s 0 x).mpr
          ⟨r, hrs, hrx, hrm'⟩
        exact hall d (by rw [hdisc]; exact List.mem_append_left _ hd) hdx
      · exfalso
        have hxl : x ∈ l.map (fun t => t.id) := by
          unfold Recon.unionIds at hx
          rw [Recon.mem_eraseDups, List.mem_append] at hx
          rcases hx with hx | hx
          · exact absurd hx hxs
          · exact hx
        obtain ⟨t, htl, htx⟩ := List.mem_map.mp hxl
        have htc : (s.map (fun r => r.transactionId)).contains t.id =
            false := by
          simp only [htx]
          simpa using hxs
        obtain ⟨d, hd, hdx⟩ := (Recon.localPass_tid _ l
          (Recon.providerPass l s 0).2.2 x).mpr ⟨t, htl, htx, htc⟩
        exact hall d (by rw [hdisc]; exact List.mem_append_right _ hd) hdx
  refine ⟨rfl, ?_, hthird, ?_⟩
  · show (Recon.providerPass l s 0).2.1 = _
    rw [Recon.providerPass_matched l s 0]
    unfold Recon.matchedIds
    rw [List.length_map]
  · intro x hx
    by_cases hxm : x ∈ Recon.matchedIds s l
    · exact Or.inl hxm
    · right
      have hnot : ¬ ∀ d ∈ (Recon.reconcile rid s l).discrepancies,
          d.transactionId ≠ x := fun hcontra =>
        hxm ((hthird x hx).mpr hcontra)
      push_neg at hnot
      obtain ⟨d, hd, hdx⟩ := hnot
      exact ⟨d, hd, hdx⟩

/-- Witness for C6 on the concrete mismatching run. -/
theorem C6_reconcile_accounting_witness :
    ((Recon.reconcile "r1" c10settlement c10locals).totalTransactions =
      (Recon.unionIds c10settlement c10locals).length) ∧
    ("t1" ∈ Recon.matchedIds c10settlement c10locals ↔
      ∀ d ∈ (Recon.reconcile "r1" c10settlement c10locals).discrepancies,
        d.transactionId ≠ "t1") := by
  have h := C6_reconcile_accounting "r1" c10settlement c10locals (by decide)
  exact ⟨h.1, h.2.2.1 "t1" (by decide)⟩
